import Mathlib

/-!
# Verification development for `sboutzen/playground`

A shallow embedding of the Go programs

* `tcpdisconnect/main.go` (one-shot connection killer),
* `tcp_disconnect/tcp_disconnect.go` (key-triggered connection killer),
* `hookie/hook_keyboard.go` and `hook_keyboard/hook_keyboard.go` (keyboard hook),

followed by theorems about them.

Conventions of the embedding.

* Every call into a DLL is an oracle supplied by an `...OS` structure; the model
  records each call (and each channel send) in a list of `Event`s, oldest first.
* A Go `error` interface value is an `Option GoError`; `none` is `nil`.  A
  `windows.Errno` stored in an `error` is `some (.Errno n)`, also for `n = 0`:
  an interface holding `Errno(0)` is not `nil`.
* `LazyProc.Call` returns `(r1, r2, lastErr)`, where `lastErr` is always an
  `Errno`; the model keeps `r1` and the number of `lastErr`.
* Run-time panics and reads through `unsafe.Pointer` that leave the allocation
  are `Outcome.fault`.
* Machine integers are `Nat` (`Int` for `int` arguments), reduced explicitly
  where the source truncates.
-/

set_option autoImplicit false

namespace Playground

/-! ## Errors, faults, outcomes -/

/-- Go `error` values that occur in the programs: `windows.Errno` codes and the
package-level sentinel errors. -/
inductive GoError where
  | Errno (code : Nat)
  | ErrEnumProcessesFailed
  | ErrEnumProcessModulesFailed
  | ErrGetModuleBaseNameFailed
  | ErrTargetPIDNotFound
  | ErrTargetConnectionNotFound
  | ErrUnableToSetHook
  | ErrUnableToUnhook
  deriving DecidableEq, Repr

/-- Abnormal terminations of a Go function. -/
inductive Fault where
  /-- Bounds check of `s[i]` failed: index `i`, length `len`. -/
  | indexOutOfRange (i len : Nat)
  /-- Bounds check of `s[:hi]` failed: bound `hi`, capacity `cap`. -/
  | sliceOutOfRange (hi cap : Nat)
  /-- A read through `unsafe.Pointer` of `width` bytes at offset `off` leaves an
  allocation of `len` bytes. -/
  | outOfBoundsRead (off width len : Nat)
  /-- An explicit `panic(err)`. -/
  | panicErr (e : GoError)
  deriving DecidableEq, Repr

/-- Result of running a Go function: it returns a value or it faults. -/
inductive Outcome (α : Type) where
  | ret (a : α)
  | fault (f : Fault)
  deriving DecidableEq, Repr

def ERROR_SUCCESS : Nat := 0
def ERROR_ACCESS_DENIED : Nat := 5
def ERROR_INSUFFICIENT_BUFFER : Nat := 122
def MIB_TCP_STATE_DELETE_TCB : Nat := 12
def WH_KEYBOARD_LL : Nat := 13
def WM_KEYDOWN : Nat := 256
def NULL : Nat := 0
/-- Size constant `LPDWORD_SIZE = uint32(unsafe.Sizeof(uint64(0)))`. -/
def LPDWORD_SIZE : Nat := 8

/-! ## Data model -/

/-- Struct `MIB_TCPROW2`: seven `uint32` fields, 28 bytes. -/
structure MIB_TCPROW2 where
  dwState : Nat
  dwLocalAddr : Nat
  dwLocalPort : Nat
  dwRemoteAddr : Nat
  dwRemotePort : Nat
  dwOwningPid : Nat
  dwOffloadState : Nat
  deriving DecidableEq, Repr

/-- The zero value `var connection MIB_TCPROW2`. -/
def MIB_TCPROW2.zero : MIB_TCPROW2 := ⟨0, 0, 0, 0, 0, 0, 0⟩

/-- One hook notification: the arguments of the callback, the `vkCode` field of
the `KBDLLHOOKSTRUCT` that `lParam` points to, and the value `CallNextHookEx`
returns for this notification. -/
structure HookEvent where
  aCode : Int
  wParam : Nat
  lParam : Nat
  vkCode : Nat
  next : Nat
  deriving DecidableEq, Repr

/-- Observable actions, in program order: DLL calls and channel sends. -/
inductive Event where
  /-- Call of `GetTcpTable2` with a nil table pointer (`none`) or a buffer of the given
  length. -/
  | GetTcpTable2 (bufLen : Option Nat)
  | SetTcpEntry (row : MIB_TCPROW2)
  | EnumProcesses
  | OpenProcess (pid : Nat)
  | EnumProcessModules (hProcess : Nat)
  | GetModuleBaseNameA (hProcess hModule : Nat)
  /-- The release `syscall.CloseHandle(h)` of a process handle.  No function of
  the programs makes this call; the constructor lets theorems say so. -/
  | CloseHandle (h : Nat)
  | SetWindowsHookExA (idHook : Nat)
  | GetMessageW
  | CallNextHookEx (hook wParam lParam : Nat)
  | UnhookWindowsHookEx (hook : Nat)
  | FreeLibrary
  /-- Send `ch <- code`. -/
  | sendKey (code : Nat)
  /-- Send `errorCh <- err`. -/
  | sendError (e : GoError)
  deriving DecidableEq, Repr

/-- A Go `map[uint32]MIB_TCPROW2` as an association list; the newest binding of
a key is the first one, and `List.lookup` finds it. -/
abbrev ConnMap := List (Nat × MIB_TCPROW2)

/-- Assignment `connections[k] = v`. -/
def ConnMap.set (m : ConnMap) (k : Nat) (v : MIB_TCPROW2) : ConnMap := (k, v) :: m

/-- Lookup `v, ok := connections[k]`. -/
def ConnMap.get (m : ConnMap) (k : Nat) : Option MIB_TCPROW2 := List.lookup k m

/-! ## Connection table reader (`getTcpTable`, `GetTcpTable2`) -/

/-- Byte `i` of a buffer. -/
def byteAt (buf : List Nat) (i : Nat) : Nat := buf.getD i 0 % 256

/-- Little-endian `uint32` at byte offset `off`. -/
def readU32 (buf : List Nat) (off : Nat) : Nat :=
  byteAt buf off + 256 * byteAt buf (off + 1) + 65536 * byteAt buf (off + 2)
    + 16777216 * byteAt buf (off + 3)

/-- The struct `*(*MIB_TCPROW2)(unsafe.Pointer(&buf[idx]))` when all 28 bytes are
inside the buffer. -/
def decodeRow (buf : List Nat) (idx : Nat) : MIB_TCPROW2 where
  dwState := readU32 buf idx
  dwLocalAddr := readU32 buf (idx + 4)
  dwLocalPort := readU32 buf (idx + 8)
  dwRemoteAddr := readU32 buf (idx + 12)
  dwRemotePort := readU32 buf (idx + 16)
  dwOwningPid := readU32 buf (idx + 20)
  dwOffloadState := readU32 buf (idx + 24)

/-- Evaluation of `*(*MIB_TCPROW2)(unsafe.Pointer(&buf[idx]))`: `&buf[idx]` is
bounds-checked, the 28-byte load is not. -/
def readRow (buf : List Nat) (idx : Nat) : Outcome MIB_TCPROW2 :=
  if buf.length ≤ idx then .fault (.indexOutOfRange idx buf.length)
  else if buf.length < idx + 28 then .fault (.outOfBoundsRead idx 28 buf.length)
  else .ret (decodeRow buf idx)

/-- The loop `for i := 0; uint32(i) < tblp.dwNumEntries; i++`, with `todo`
iterations left, `idx` the current offset and `step = 28`. -/
def tableLoop (buf : List Nat) : Nat → Nat → ConnMap → Outcome ConnMap
  | 0, _, connections => .ret connections
  | todo + 1, idx, connections =>
    match readRow buf idx with
    | .fault f => .fault f
    | .ret mibs => tableLoop buf todo (idx + 28) (connections.set mibs.dwOwningPid mibs)

/-- Lines 77-87 of `getTcpTable`: read `tblp.dwNumEntries` from the start of the
buffer and build the map. -/
def buildConnections (buf : List Nat) : Outcome ConnMap :=
  if buf.length < 4 then .fault (.outOfBoundsRead 0 4 buf.length)
  else tableLoop buf (readU32 buf 0) 4 []

/-- The operating system's side of the two `GetTcpTable2` calls. -/
structure TcpOS where
  /-- Return value of the call with a nil table. -/
  probeCode : Nat
  /-- Value stored in `size` by that call. -/
  probeSize : Nat
  /-- Return value of the call with the allocated buffer. -/
  fetchCode : Nat
  /-- Byte the second call stores at each offset of the buffer. -/
  fetchData : Nat → Nat

/-- The buffer `buf` after the second call: `size` bytes. -/
def TcpOS.buffer (os : TcpOS) : List Nat :=
  (List.range (os.probeSize % 4294967296)).map (fun j => os.fetchData j % 256)

/-- Function `getTcpTable` of `tcpdisconnect/main.go`. -/
def getTcpTable (os : TcpOS) : List Event × Outcome (Option ConnMap × Option GoError) :=
  let size := os.probeSize % 4294967296
  if os.probeCode ≠ ERROR_INSUFFICIENT_BUFFER then
    ([.GetTcpTable2 none], .ret (none, some (.Errno os.probeCode)))
  else if size = 0 then
    -- `&buf[0]` on an empty slice
    ([.GetTcpTable2 none], .fault (.indexOutOfRange 0 0))
  else
    let calls := [Event.GetTcpTable2 none, Event.GetTcpTable2 (some size)]
    if os.fetchCode ≠ ERROR_SUCCESS then
      (calls, .ret (none, some (.Errno os.fetchCode)))
    else
      match buildConnections os.buffer with
      | .fault f => (calls, .fault f)
      | .ret connections => (calls, .ret (some connections, none))

/-- Function `GetTcpTable2` of `tcp_disconnect/tcp_disconnect.go`; its body is the body of
`getTcpTable`, statement for statement. -/
def GetTcpTable2 (os : TcpOS) : List Event × Outcome (Option ConnMap × Option GoError) :=
  getTcpTable os

/-- Record `i` of a table buffer: the 28 bytes at offset `4 + 28 * i`. -/
def recordAt (buf : List Nat) (i : Nat) : MIB_TCPROW2 := decodeRow buf (4 + 28 * i)

/-! ## Process locator (`getTargetPID`) -/

/-- Library function `strings.Contains(s, sub)` on byte strings. -/
def Contains : List Nat → List Nat → Bool
  | [], sub => sub.isPrefixOf []
  | c :: s, sub => sub.isPrefixOf (c :: s) || Contains s sub

/-- The string literal "exile". -/
def exile : List Nat := [101, 120, 105, 108, 101]

/-- ASCII lower-casing of a byte string: what `strings.ToLower` does on a string
whose bytes are all below 128. -/
def asciiToLower (s : List Nat) : List Nat :=
  s.map (fun c => if 65 ≤ c ∧ c ≤ 90 then c + 32 else c)

/-- What `EnumProcessModules` leaves behind: `r1`, the last error, `lpcbNeeded`
and the contents of the handle buffer `hModules`. -/
structure EnumModulesResult where
  winErrCode : Nat
  winErr : Nat
  lpcbNeeded : Nat
  hModules : Nat → Nat

/-- What `GetModuleBaseNameA` leaves behind: `r1` (bytes written), the last error
and the contents of the name buffer. -/
structure BaseNameResult where
  bytesWritten : Nat
  winErr : Nat
  lpBaseName : Nat → Nat

/-- The operating system's process surface, as a function of the arguments of
each call. -/
structure ProcOS where
  /-- Result of `syscall.OpenProcess(..., pid)`: handle and error. -/
  openProcess : Nat → Nat × Option GoError
  enumProcessModules : Nat → EnumModulesResult
  getModuleBaseName : Nat → Nat → BaseNameResult

/-- How the scan of one process ends. -/
inductive Scan where
  /-- A module name matched: `return p, nil`. -/
  | found
  /-- No module matched: on to the next id. -/
  | next
  /-- The statement `return 0, e`. -/
  | stop (e : GoError)
  | crash (f : Fault)
  deriving DecidableEq, Repr

/-- The two copies of `getTargetPID` differ in the size of the name buffer and
in what they do with an error of module enumeration or of a name fetch. -/
structure Variant where
  /-- Length `len(lpBaseName)` of the name buffer. -/
  nameCap : Nat
  onError : GoError → Scan

/-- Copy in `tcpdisconnect/main.go`: 500-byte name buffer, errors are
returned. -/
def Variant.main : Variant := ⟨500, Scan.stop⟩

/-- Copy in `tcp_disconnect/tcp_disconnect.go`: 1024-byte name buffer, `panic(err)`. -/
def Variant.tcp_disconnect : Variant := ⟨1024, fun e => Scan.crash (.panicErr e)⟩

/-- The loop `for i := 0; i < int(lpcbNeeded/LPDWORD_SIZE); i++` over the module
handles, with `todo` iterations left; `hModules` has 1024 entries.  The library
function `strings.ToLower` is the parameter `lower`. -/
def scanModules (v : Variant) (os : ProcOS) (lower : List Nat → List Nat) (hProcess : Nat)
    (hModules : Nat → Nat) : Nat → Nat → List Event × Scan
  | 0, _ => ([], .next)
  | todo + 1, i =>
    if 1024 ≤ i then ([], .crash (.indexOutOfRange i 1024))
    else
      let mh := hModules i
      let r := os.getModuleBaseName hProcess mh
      let call := Event.GetModuleBaseNameA hProcess mh
      if r.winErr ≠ ERROR_SUCCESS then ([call], v.onError (.Errno r.winErr))
      else if r.bytesWritten = 0 then ([call], v.onError .ErrGetModuleBaseNameFailed)
      else if v.nameCap < r.bytesWritten then
        ([call], .crash (.sliceOutOfRange r.bytesWritten v.nameCap))
      else
        let str := (List.range r.bytesWritten).map (fun j => r.lpBaseName j % 256)
        if Contains (lower str) exile then ([call], .found)
        else
          let rest := scanModules v os lower hProcess hModules todo (i + 1)
          (call :: rest.1, rest.2)

/-- Module enumeration and module loop for an opened process. -/
def scanProcess (v : Variant) (os : ProcOS) (lower : List Nat → List Nat) (hProcess : Nat) :
    List Event × Scan :=
  let r := os.enumProcessModules hProcess
  let call := Event.EnumProcessModules hProcess
  if r.winErr ≠ ERROR_SUCCESS then ([call], v.onError (.Errno r.winErr))
  else if r.winErrCode = 0 then ([call], v.onError .ErrEnumProcessModulesFailed)
  else
    let rest := scanModules v os lower hProcess r.hModules
      (r.lpcbNeeded % 4294967296 / LPDWORD_SIZE) 0
    (call :: rest.1, rest.2)

/-- The loop `for _, p := range PIDs` of `getTargetPID`. -/
def scanPIDs (v : Variant) (os : ProcOS) (lower : List Nat → List Nat) :
    List Nat → List Event × Outcome (Nat × Option GoError)
  | [] => ([], .ret (0, some .ErrTargetPIDNotFound))
  | p :: rest =>
    if p = 0 then scanPIDs v os lower rest
    else
      let opened := os.openProcess p
      let call := Event.OpenProcess p
      if opened.2 = some (.Errno ERROR_ACCESS_DENIED) then
        let r := scanPIDs v os lower rest
        (call :: r.1, r.2)
      else
        match opened.2 with
        | some err => ([call], .ret (0, some err))
        | none =>
          match scanProcess v os lower opened.1 with
          | (tr, .found) => (call :: tr, .ret (p, none))
          | (tr, .stop e) => (call :: tr, .ret (0, some e))
          | (tr, .crash f) => (call :: tr, .fault f)
          | (tr, .next) =>
            let r := scanPIDs v os lower rest
            (call :: (tr ++ r.1), r.2)

/-- Function `getTargetPID` of `tcpdisconnect/main.go`. -/
def getTargetPID (os : ProcOS) (lower : List Nat → List Nat) (PIDs : List Nat) :
    List Event × Outcome (Nat × Option GoError) :=
  scanPIDs Variant.main os lower PIDs

/-- Function `getTargetPID` of `tcp_disconnect/tcp_disconnect.go` (with
`EnumProcessModules` and `GetModuleBaseName` inlined). -/
def getTargetPID_tcp_disconnect (os : ProcOS) (lower : List Nat → List Nat) (PIDs : List Nat) :
    List Event × Outcome (Nat × Option GoError) :=
  scanPIDs Variant.tcp_disconnect os lower PIDs

/-! ## Connection terminator (`killTargetConnection`, `SetTcpEntry`) -/

/-- The operating system's `SetTcpEntry`: return value and last error for a
submitted record. -/
structure SetOS where
  setTcpEntry : MIB_TCPROW2 → Nat × Nat

/-- Function `SetTcpEntry` of `tcp_disconnect/tcp_disconnect.go`. -/
def SetTcpEntry (os : SetOS) (mib : MIB_TCPROW2) : List Event × Option GoError :=
  let r := os.setTcpEntry mib
  let call := Event.SetTcpEntry mib
  if r.2 ≠ ERROR_SUCCESS then ([call], some (.Errno r.2))
  else if r.1 ≠ 0 then ([call], some (.Errno r.1))
  else ([call], none)

/-- Function `killTargetConnection` of `tcpdisconnect/main.go`. -/
def killTargetConnection (os : SetOS) (mib : MIB_TCPROW2) : List Event × Option GoError :=
  let connection := { mib with dwState := MIB_TCP_STATE_DELETE_TCB }
  let r := os.setTcpEntry connection
  let call := Event.SetTcpEntry connection
  if r.2 ≠ ERROR_SUCCESS then ([call], some (.Errno r.2))
  else if r.1 ≠ 0 then ([call], some (.Errno r.1))
  else ([call], none)

/-! ## Control loop (`tcp_disconnect/tcp_disconnect.go`) -/

/-- What `EnumProcesses` leaves behind: `r1`, the last error and the id buffer. -/
structure EnumProcessesResult where
  winCode : Nat
  winErr : Nat
  lpidProcess : List Nat

/-- Function `EnumProcesses` of `tcp_disconnect/tcp_disconnect.go`. -/
def EnumProcesses (r : EnumProcessesResult) : List Event × (Option (List Nat) × Option GoError) :=
  if r.winCode = 0 then ([.EnumProcesses], (none, some .ErrEnumProcessesFailed))
  else if r.winErr ≠ ERROR_SUCCESS then ([.EnumProcesses], (none, some (.Errno r.winErr)))
  else ([.EnumProcesses], (some r.lpidProcess, none))

/-- The state of the operating system seen by one poll. -/
structure World where
  tcp : TcpOS
  enum : EnumProcessesResult
  proc : ProcOS

/-- Function `getPoeConnection`.  A nil map or a nil id slice behaves as an empty one. -/
def getPoeConnection (lower : List Nat → List Nat) (w : World) :
    List Event × Outcome (MIB_TCPROW2 × Option GoError) :=
  let connection := MIB_TCPROW2.zero
  match GetTcpTable2 w.tcp with
  | (t1, .fault f) => (t1, .fault f)
  | (t1, .ret (_, some err)) => (t1, .ret (connection, some err))
  | (t1, .ret (tcpConnections, none)) =>
    match EnumProcesses w.enum with
    | (t2, (_, some err)) => (t1 ++ t2, .ret (connection, some err))
    | (t2, (PIDs, none)) =>
      match getTargetPID_tcp_disconnect w.proc lower (PIDs.getD []) with
      | (t3, .fault f) => (t1 ++ t2 ++ t3, .fault f)
      | (t3, .ret (_, some err)) => (t1 ++ t2 ++ t3, .ret (connection, some err))
      | (t3, .ret (targetPID, none)) =>
        match ConnMap.get (tcpConnections.getD []) targetPID with
        | none => (t1 ++ t2 ++ t3, .ret (connection, some .ErrTargetConnectionNotFound))
        | some mib => (t1 ++ t2 ++ t3, .ret (mib, none))

/-- Result of `waitForPoeConnection`: the number of polls made, the events and
how the call ended. -/
structure WaitResult where
  polls : Nat
  trace : List Event
  out : Outcome (MIB_TCPROW2 × Option GoError)
  deriving DecidableEq, Repr

/-- Function `waitForPoeConnection`: poll number `n` sees `worlds n`.  The loop has no
bound in the source; `none` means the `fuel` polls allowed here did not end it. -/
def waitForPoeConnection (lower : List Nat → List Nat) (worlds : Nat → World) :
    Nat → Nat → Option WaitResult
  | 0, _ => none
  | fuel + 1, n =>
    match getPoeConnection lower (worlds n) with
    | (t, .fault f) => some ⟨1, t, .fault f⟩
    | (t, .ret (con, none)) => some ⟨1, t, .ret (con, none)⟩
    | (t, .ret (_, some err)) =>
      if err ≠ .ErrTargetConnectionNotFound then some ⟨1, t, .ret (MIB_TCPROW2.zero, some err)⟩
      else
        match waitForPoeConnection lower worlds fuel (n + 1) with
        | none => none
        | some r => some ⟨r.polls + 1, t ++ r.trace, r.out⟩

/-- One iteration of the main loop of `start`, for the byte `c` received from
`ch`: the body of `case c := <- ch`.  `none` as for `waitForPoeConnection`. -/
def startOnKey (lower : List Nat → List Nat) (worlds : Nat → World) (set : SetOS)
    (fuel : Nat) (c : Nat) : Option (Nat × List Event × Outcome Unit) :=
  -- `string(c) == "Q"`
  if c ≠ 81 then some (0, [], .ret ())
  else
    match waitForPoeConnection lower worlds fuel 0 with
    | none => none
    | some ⟨polls, t, .fault f⟩ => some (polls, t, .fault f)
    | some ⟨polls, t, .ret (_, some err)⟩ => some (polls, t, .fault (.panicErr err))
    | some ⟨polls, t, .ret (poeConnection, none)⟩ =>
      let poeConnection := { poeConnection with dwState := MIB_TCP_STATE_DELETE_TCB }
      let r := SetTcpEntry set poeConnection
      -- a non-nil `err` is only printed
      some (polls, t ++ r.1, .ret ())

/-! ## Keyboard hook (`HookKeyboard`) -/

/-- The operating system's hook surface. -/
structure HookOS where
  /-- Result of `SetWindowsHookExA`: `r1` (the handle) and the last error. -/
  setWindowsHookEx : Nat × Nat
  /-- Result of `GetMessageW`: `r1` and the last error. -/
  getMessage : Nat × Nat
  /-- Notifications the system dispatches to the callback while `GetMessageW`
  is executing, in a call that returns. -/
  delivered : List HookEvent
  /-- Result of `UnhookWindowsHookEx`: `r1` and the last error. -/
  unhook : Nat → Nat × Nat

/-- Function `setWindowsHook`. -/
def setWindowsHook (os : HookOS) (keyboardHookID : Nat) : List Event × (Nat × Option GoError) :=
  let call := Event.SetWindowsHookExA keyboardHookID
  if os.setWindowsHookEx.2 ≠ ERROR_SUCCESS then ([call], (NULL, some (.Errno os.setWindowsHookEx.2)))
  else if os.setWindowsHookEx.1 = NULL then ([call], (NULL, some .ErrUnableToSetHook))
  else ([call], (os.setWindowsHookEx.1, none))

/-- Function `callNextHook`; the model records the hook handle, `wParam` and
`lParam` of the call (the second argument in the source is the address of the
local copy of `aCode`). -/
def callNextHook (hook : Nat) (ev : HookEvent) : List Event × Nat :=
  ([.CallNextHookEx hook ev.wParam ev.lParam], ev.next)

/-- The closure `callback` of `HookKeyboard`; `keyboardHook` is the value of the
captured variable when the callback runs.  The key channel is unbuffered
(`make(chan byte)` in `start`), so the send `ch <- code` completes only when the
receiving side takes the byte; `taken` says whether it does.  The result is the
value returned, or `none` when the callback stays blocked in the send. -/
def callback (keyboardHook : Nat) (ev : HookEvent) (taken : Bool) : List Event × Option Nat :=
  if ev.aCode = 0 ∧ ev.wParam = WM_KEYDOWN then
    -- `code := byte(kbdstruct.vkCode); ch <- code`
    if taken then
      let r := callNextHook keyboardHook ev
      (.sendKey (ev.vkCode % 256) :: r.1, some r.2)
    else ([], none)
  else
    let r := callNextHook keyboardHook ev
    (r.1, some r.2)

/-- Function `getMesage`: the call, the callbacks the system runs during it, and the
error returned.  A call of `GetMessageW` returns only if every callback run
during it returns, so in the calls described here every byte sent is taken. -/
def getMesage (os : HookOS) (keyboardHook : Nat) : List Event × Option GoError :=
  let tr := Event.GetMessageW ::
    (os.delivered.map (fun ev => (callback keyboardHook ev true).1)).flatten
  if os.getMessage.2 ≠ ERROR_SUCCESS then (tr, some (.Errno os.getMessage.2))
  else if os.getMessage.1 ≠ 0 then (tr, some (.Errno os.getMessage.1))
  else (tr, none)

/-- Function `unhookWindowsHook`; `returnCode <= 0` on a `uintptr` is `returnCode == 0`. -/
def unhookWindowsHook (os : HookOS) (hHook : Nat) : List Event × Option GoError :=
  let r := os.unhook hHook
  if r.2 ≠ ERROR_SUCCESS then ([.UnhookWindowsHookEx hHook], some .ErrUnableToUnhook)
  else if r.1 = 0 then ([.UnhookWindowsHookEx hHook], some (.Errno r.1))
  else ([.UnhookWindowsHookEx hHook], none)

/-- Function `HookKeyboard` (both copies).  The statement
`for err := getMesage(msg, 0, 0, 0); err != nil; { errorCh <- err; return }`
runs its init statement once; its body returns, and when the condition is false
the loop is left.  Deferred calls run last, newest first. -/
def HookKeyboard (os : HookOS) : List Event :=
  match setWindowsHook os WH_KEYBOARD_LL with
  | (t1, (_, some err)) => t1 ++ [.sendError err] ++ [.FreeLibrary]
  | (t1, (keyboardHook, none)) =>
    let deferred := (unhookWindowsHook os keyboardHook).1 ++ [.FreeLibrary]
    match getMesage os keyboardHook with
    | (t2, some err) => t1 ++ t2 ++ [.sendError err] ++ deferred
    | (t2, none) => t1 ++ t2 ++ deferred

/-! ## Vocabulary for the process locator -/

/-- Number of module handles the module loop visits for process handle `h`:
`int(lpcbNeeded/LPDWORD_SIZE)`. -/
def moduleCount (os : ProcOS) (h : Nat) : Nat :=
  (os.enumProcessModules h).lpcbNeeded % 4294967296 / LPDWORD_SIZE

/-- The name fetch for entry `i` of the handle buffer of process handle `h`. -/
def nameFetch (os : ProcOS) (h i : Nat) : BaseNameResult :=
  os.getModuleBaseName h ((os.enumProcessModules h).hModules i)

/-- The string `string(lpBaseName[:bytesWritten])` of that fetch. -/
def moduleName (os : ProcOS) (h i : Nat) : List Nat :=
  (List.range (nameFetch os h i).bytesWritten).map (fun j => (nameFetch os h i).lpBaseName j % 256)

/-- Process `p` has a loaded module whose lower-cased name contains "exile". -/
def hasTargetModule (os : ProcOS) (lower : List Nat → List Nat) (p : Nat) : Prop :=
  ∃ i, i < moduleCount os (os.openProcess p).1 ∧
    Contains (lower (moduleName os (os.openProcess p).1 i)) exile = true

/-- The open, the module enumeration and every module-name fetch of process `p`
succeed: no error is reported, the enumeration returns non-zero and reports no
more handles than the 1024-entry buffer holds, and each fetch writes at least one
byte and no more than the name buffer of `cap` bytes holds. -/
def Succeeds (cap : Nat) (os : ProcOS) (p : Nat) : Prop :=
  (os.openProcess p).2 = none ∧
  (os.enumProcessModules (os.openProcess p).1).winErr = 0 ∧
  (os.enumProcessModules (os.openProcess p).1).winErrCode ≠ 0 ∧
  moduleCount os (os.openProcess p).1 ≤ 1024 ∧
  ∀ i, i < moduleCount os (os.openProcess p).1 →
    (nameFetch os (os.openProcess p).1 i).winErr = 0 ∧
    0 < (nameFetch os (os.openProcess p).1 i).bytesWritten ∧
    (nameFetch os (os.openProcess p).1 i).bytesWritten ≤ cap

instance (os : ProcOS) (lower : List Nat → List Nat) (p : Nat) :
    Decidable (hasTargetModule os lower p) := by
  unfold hasTargetModule
  infer_instance

instance (cap : Nat) (os : ProcOS) (p : Nat) : Decidable (Succeeds cap os p) := by
  unfold Succeeds
  infer_instance

/-! ## Vocabulary for the control loop -/

/-- What one poll sees: the table read succeeds, the id list is obtained, the
target process id `pid` is located, and the table lookup for `pid` gives
`entry`. -/
def PollSees (lower : List Nat → List Nat) (w : World) (pid : Nat)
    (entry : Option MIB_TCPROW2) : Prop :=
  ∃ (tbl : ConnMap) (pids : List Nat),
    (GetTcpTable2 w.tcp).2 = .ret (some tbl, none) ∧
    (EnumProcesses w.enum).2 = (some pids, none) ∧
    (getTargetPID_tcp_disconnect w.proc lower pids).2 = .ret (pid, none) ∧
    tbl.get pid = entry

/-- The record `r` with its state replaced by `MIB_TCP_STATE_DELETE_TCB`, field
by field. -/
def deleteRecord (r : MIB_TCPROW2) : MIB_TCPROW2 :=
  ⟨12, r.dwLocalAddr, r.dwLocalPort, r.dwRemoteAddr, r.dwRemotePort, r.dwOwningPid,
    r.dwOffloadState⟩

/-! ## Event classifiers -/

def Event.isSendKey : Event → Bool
  | .sendKey _ => true
  | _ => false

def Event.isCallNextHook : Event → Bool
  | .CallNextHookEx _ _ _ => true
  | _ => false

def Event.isUnhook : Event → Bool
  | .UnhookWindowsHookEx _ => true
  | _ => false

def Event.isGetMessage : Event → Bool
  | .GetMessageW => true
  | _ => false

def Event.isSendError : Event → Bool
  | .sendError _ => true
  | _ => false

def Event.isSetTcpEntry : Event → Bool
  | .SetTcpEntry _ => true
  | _ => false

/-- The process id of an `OpenProcess` call. -/
def Event.openedPid : Event → Option Nat
  | .OpenProcess pid => some pid
  | _ => none

/-- Calls that examine an opened process. -/
def Event.isModuleQuery : Event → Bool
  | .EnumProcessModules _ => true
  | .GetModuleBaseNameA _ _ => true
  | _ => false

/-- A notification the callback decodes: `aCode == 0 && wParam == WM_KEYDOWN`. -/
def HookEvent.isKeyDown (ev : HookEvent) : Bool := ev.aCode = 0 ∧ ev.wParam = 256

/-- The handle of a `CloseHandle` call. -/
def Event.closedHandle : Event → Option Nat
  | .CloseHandle h => some h
  | _ => none

/-- The process handles a run obtained: one for each `OpenProcess` call that
returned no error, in order. -/
def openedHandles (os : ProcOS) (t : List Event) : List Nat :=
  t.filterMap (fun e =>
    match e with
    | .OpenProcess pid =>
      if (os.openProcess pid).2 = none then some (os.openProcess pid).1 else none
    | _ => none)

/-- What a poll sees when the process locator reports NotFound: the table read
succeeds, the id list is obtained, and `getTargetPID` returns
`ErrTargetPIDNotFound`. -/
def PollNotFound (lower : List Nat → List Nat) (w : World) : Prop :=
  ∃ (tbl : ConnMap) (pids : List Nat),
    (GetTcpTable2 w.tcp).2 = .ret (some tbl, none) ∧
    (EnumProcesses w.enum).2 = (some pids, none) ∧
    (getTargetPID_tcp_disconnect w.proc lower pids).2 = .ret (0, some .ErrTargetPIDNotFound)

/-- The list of the first `n` records of a table buffer, each with its key, in
the order in which the table loop inserts them. -/
def recordsRead (buf : List Nat) (n : Nat) : List (Nat × MIB_TCPROW2) :=
  (List.range n).map (fun i => ((recordAt buf i).dwOwningPid, recordAt buf i))

/-! ## Concrete inputs -/

/-- A table buffer of 60 bytes: entry count 2, then a record owned by process
4242 with local port 6112 and a record owned by process 7. -/
def demoTableBytes : List Nat :=
  [2, 0, 0, 0,
   5, 0, 0, 0,  1, 0, 0, 127,  224, 23, 0, 0,  9, 9, 9, 9,  187, 1, 0, 0,  146, 16, 0, 0,  0, 0, 0, 0,
   2, 0, 0, 0,  0, 0, 0, 0,  80, 0, 0, 0,  0, 0, 0, 0,  0, 0, 0, 0,  7, 0, 0, 0,  0, 0, 0, 0]

/-- An operating system whose probe asks for 60 bytes and whose fetch stores
`demoTableBytes`. -/
def demoTcpOS : TcpOS := ⟨122, 60, 0, fun j => demoTableBytes.getD j 0⟩

/-- The first record of `demoTableBytes`. -/
def demoRow : MIB_TCPROW2 := ⟨5, 2130706433, 6112, 151587081, 443, 4242, 0⟩

/-- An operating system whose probe answers "insufficient buffer" and reports a
required size of 0 bytes. -/
def emptyProbeOS : TcpOS := ⟨122, 0, 0, fun _ => 0⟩

/-- A hook surface on which the install fails with last error 1404. -/
def failingHookOS : HookOS := ⟨(0, 1404), (0, 0), [], fun _ => (1, 0)⟩

/-- A key-down notification for virtual key 81 and a key-up notification. -/
def demoKeys : List HookEvent := [⟨0, 256, 4096, 81, 1⟩, ⟨0, 257, 4096, 81, 1⟩]

/-- A hook surface on which the install returns handle 77 and the first
`GetMessageW` returns 0 with last error 0, after two notifications. -/
def quietHookOS : HookOS := ⟨(77, 0), (0, 0), demoKeys, fun _ => (1, 0)⟩

/-- A hook surface on which the install returns handle 77 and `GetMessageW`
returns 1. -/
def busyHookOS : HookOS := ⟨(77, 0), (1, 0), [], fun _ => (1, 0)⟩

/-- A `SetTcpEntry` that returns 0 while the thread's last error is 5. -/
def staleErrorOS : SetOS := ⟨fun _ => (0, 5)⟩

/-- A `SetTcpEntry` that returns 0 with last error 0. -/
def acceptingOS : SetOS := ⟨fun _ => (0, 0)⟩

/-- The bytes of "PathOfExile.exe". -/
def namePathOfExile : List Nat :=
  [80, 97, 116, 104, 79, 102, 69, 120, 105, 108, 101, 46, 101, 120, 101]

/-- The bytes of "ntdll.dll". -/
def nameNtdll : List Nat := [110, 116, 100, 108, 108, 46, 100, 108, 108]

/-- A process surface: process 4 refuses to be opened (access denied); every
other process `p` opens with handle `p + 1000`; process 4242 has the two modules
"ntdll.dll" and "PathOfExile.exe", every other process has the one module
"ntdll.dll". -/
def demoProcOS : ProcOS where
  openProcess := fun p => if p = 4 then (0, some (.Errno 5)) else (p + 1000, none)
  enumProcessModules := fun h =>
    if h = 5242 then ⟨1, 0, 16, fun i => 200 + i⟩ else ⟨1, 0, 8, fun i => 100 + i⟩
  getModuleBaseName := fun _ mh =>
    if mh = 201 then ⟨15, 0, fun j => namePathOfExile.getD j 0⟩
    else ⟨9, 0, fun j => nameNtdll.getD j 0⟩

/-- A table buffer of 32 bytes: entry count 1 and a record owned by process 7. -/
def earlyTableBytes : List Nat :=
  [1, 0, 0, 0,
   2, 0, 0, 0,  0, 0, 0, 0,  80, 0, 0, 0,  0, 0, 0, 0,  0, 0, 0, 0,  7, 0, 0, 0,  0, 0, 0, 0]

/-- Process ids reported by `EnumProcesses`. -/
def demoPIDs : EnumProcessesResult := ⟨1, 0, [0, 4, 4242]⟩

/-- Poll 0 sees a table without a connection of process 4242; every later poll
sees `demoTableBytes`, in which process 4242 owns the connection with local port
6112. -/
def demoWorlds (n : Nat) : World :=
  if n = 0 then ⟨⟨122, 32, 0, fun j => earlyTableBytes.getD j 0⟩, demoPIDs, demoProcOS⟩
  else ⟨demoTcpOS, demoPIDs, demoProcOS⟩

/-- The events of the two polls of `demoWorlds`. -/
def demoPollTrace : List Event :=
  ((waitForPoeConnection asciiToLower demoWorlds 2 0).map WaitResult.trace).getD []

/-- An operating system whose probe asks for 40 bytes and whose fetch stores the
first 40 bytes of `demoTableBytes`: the header announces 2 records, the buffer
holds one record and 8 bytes of the next. -/
def shortTcpOS : TcpOS := ⟨122, 40, 0, fun j => demoTableBytes.getD j 0⟩

/-- Every poll sees the table `demoTableBytes` and the processes 4 and 8, none of
which has a module whose name contains "exile". -/
def strangerWorlds (_ : Nat) : World := ⟨demoTcpOS, ⟨1, 0, [0, 4, 8]⟩, demoProcOS⟩

/-- A process surface on which every process opens with handle `p + 1000` and
the module enumeration reports 8200 bytes, 1025 handles; every module is named
"ntdll.dll". -/
def crowdedProcOS : ProcOS where
  openProcess := fun p => (p + 1000, none)
  enumProcessModules := fun _ => ⟨1, 0, 8200, fun i => 100 + i⟩
  getModuleBaseName := fun _ _ => ⟨9, 0, fun j => nameNtdll.getD j 0⟩

/-- As `crowdedProcOS`, except that the module with handle 105 is named
"PathOfExile.exe". -/
def crowdedTargetOS : ProcOS where
  openProcess := fun p => (p + 1000, none)
  enumProcessModules := fun _ => ⟨1, 0, 8200, fun i => 100 + i⟩
  getModuleBaseName := fun _ mh =>
    if mh = 105 then ⟨15, 0, fun j => namePathOfExile.getD j 0⟩
    else ⟨9, 0, fun j => nameNtdll.getD j 0⟩

/-- A process surface on which every call succeeds: every process opens with
handle `p + 1000`; process 4242 has the two modules "ntdll.dll" and
"PathOfExile.exe"; every other process reports 8200 bytes of module handles,
1025 handles, all of modules named "ntdll.dll". -/
def crowdedFirstOS : ProcOS where
  openProcess := fun p => (p + 1000, none)
  enumProcessModules := fun h =>
    if h = 5242 then ⟨1, 0, 16, fun i => 200 + i⟩ else ⟨1, 0, 8200, fun i => 100 + i⟩
  getModuleBaseName := fun h mh =>
    if h = 5242 ∧ mh = 201 then ⟨15, 0, fun j => namePathOfExile.getD j 0⟩
    else ⟨9, 0, fun j => nameNtdll.getD j 0⟩

/-- A process surface on which process 4242 has the two modules "ntdll.dll" and
"PathOfExile.exe" and every other process has the one module "ntdll.dll"; each
name fetch writes the name and returns its length, and the fetches of
"ntdll.dll" leave the thread's last error at 299. -/
def staleNameOS : ProcOS where
  openProcess := fun p => (p + 1000, none)
  enumProcessModules := fun h =>
    if h = 5242 then ⟨1, 0, 16, fun i => 200 + i⟩ else ⟨1, 0, 8, fun i => 100 + i⟩
  getModuleBaseName := fun h mh =>
    if h = 5242 ∧ mh = 201 then ⟨15, 0, fun j => namePathOfExile.getD j 0⟩
    else ⟨9, 299, fun j => nameNtdll.getD j 0⟩

/-! ## Theorems: connection table reader -/

theorem ConnMap.get_set (m : ConnMap) (k p : Nat) (v : MIB_TCPROW2) :
    (m.set k v).get p = if p = k then some v else m.get p := by
  unfold ConnMap.set ConnMap.get
  by_cases h : p = k
  · subst h
    simp [List.lookup]
  · have hb : (p == k) = false := by simpa using h
    simp [List.lookup, hb, h]

theorem readRow_inside (buf : List Nat) (idx : Nat) (h : idx + 28 ≤ buf.length) :
    readRow buf idx = .ret (decodeRow buf idx) := by
  unfold readRow
  rw [if_neg (by omega), if_neg (by omega)]

/-- The table loop started at record `s` with `n` records to go, all of them
inside the buffer: it ends, and the map it returns is decided by the last
record of each owner among records `s .. s + n - 1`. -/
theorem tableLoop_spec (buf : List Nat) :
    ∀ (n s : Nat) (m : ConnMap), 4 + 28 * (s + n) ≤ buf.length →
      ∃ m' : ConnMap, tableLoop buf n (4 + 28 * s) m = .ret m' ∧
        ∀ p : Nat,
          (∀ k, s ≤ k → k < s + n → (recordAt buf k).dwOwningPid = p →
            (∀ i, k < i → i < s + n → (recordAt buf i).dwOwningPid ≠ p) →
            m'.get p = some (recordAt buf k)) ∧
          ((∀ i, s ≤ i → i < s + n → (recordAt buf i).dwOwningPid ≠ p) →
            m'.get p = m.get p) := by
  intro n
  induction n with
  | zero =>
    intro s m _
    refine ⟨m, rfl, fun p => ⟨?_, fun _ => rfl⟩⟩
    intro k hk1 hk2
    omega
  | succ n ih =>
    intro s m hlen
    have hrow : readRow buf (4 + 28 * s) = .ret (recordAt buf s) :=
      readRow_inside buf _ (by omega)
    obtain ⟨m', hm', hspec⟩ :=
      ih (s + 1) (m.set (recordAt buf s).dwOwningPid (recordAt buf s)) (by omega)
    refine ⟨m', ?_, ?_⟩
    · have hidx : 4 + 28 * s + 28 = 4 + 28 * (s + 1) := by ring
      simp only [tableLoop, hrow, hidx]
      exact hm'
    · intro p
      obtain ⟨hlast, hnone⟩ := hspec p
      constructor
      · intro k hk1 hk2 hpid hlater
        rcases Nat.eq_or_lt_of_le hk1 with hks | hks
        · subst hks
          rw [hnone (fun i hi1 hi2 => hlater i (by omega) (by omega)), ConnMap.get_set,
            if_pos hpid.symm]
        · exact hlast k (by omega) (by omega) hpid
            (fun i hi1 hi2 => hlater i hi1 (by omega))
      · intro hall
        rw [hnone (fun i hi1 hi2 => hall i (by omega) (by omega)), ConnMap.get_set,
          if_neg (fun h => hall s (le_refl s) (by omega) h.symm)]

/-- Among the first `n` records, an owner that occurs at all has a last
occurrence. -/
theorem exists_last_owner (buf : List Nat) (p : Nat) :
    ∀ n : Nat, (∃ i, i < n ∧ (recordAt buf i).dwOwningPid = p) →
      ∃ k, k < n ∧ (recordAt buf k).dwOwningPid = p ∧
        ∀ i, k < i → i < n → (recordAt buf i).dwOwningPid ≠ p := by
  intro n
  induction n with
  | zero =>
    rintro ⟨i, hi, _⟩
    omega
  | succ n ih =>
    rintro ⟨i, hi, hp⟩
    by_cases hn : (recordAt buf n).dwOwningPid = p
    · exact ⟨n, by omega, hn, fun j hj1 hj2 => by omega⟩
    · have hin : i < n := by
        rcases Nat.lt_or_ge i n with h | h
        · exact h
        · have : i = n := by omega
          subst this
          exact absurd hp hn
      obtain ⟨k, hk, hkp, hlater⟩ := ih ⟨i, hin, hp⟩
      refine ⟨k, by omega, hkp, fun j hj1 hj2 => ?_⟩
      rcases Nat.lt_or_ge j n with h | h
      · exact hlater j hj1 h
      · have : j = n := by omega
        subst this
        exact hn

theorem buffer_length (os : TcpOS) : os.buffer.length = os.probeSize % 4294967296 := by
  simp [TcpOS.buffer]

/-- C1. For a table buffer that holds its entry count `N` followed by `N`
28-byte records, `getTcpTable` and `GetTcpTable2` return a map and no error; the
map has an entry for process id `p` exactly when some record is owned by `p`;
that entry is the last record owned by `p`; and when record `k` is the only one
owned by `p`, looking up `p` gives record `k`. -/
theorem getTcpTable_index (os : TcpOS)
    (hprobe : os.probeCode = ERROR_INSUFFICIENT_BUFFER)
    (hfetch : os.fetchCode = ERROR_SUCCESS)
    (hfit : 4 + 28 * readU32 os.buffer 0 ≤ os.buffer.length) :
    ∃ connections : ConnMap,
      (getTcpTable os).2 = .ret (some connections, none) ∧
      (GetTcpTable2 os).2 = .ret (some connections, none) ∧
      ∀ p : Nat,
        ((∃ r, connections.get p = some r) ↔
          ∃ i, i < readU32 os.buffer 0 ∧ (recordAt os.buffer i).dwOwningPid = p) ∧
        (∀ k, k < readU32 os.buffer 0 → (recordAt os.buffer k).dwOwningPid = p →
          (∀ i, k < i → i < readU32 os.buffer 0 → (recordAt os.buffer i).dwOwningPid ≠ p) →
          connections.get p = some (recordAt os.buffer k)) ∧
        (∀ k, k < readU32 os.buffer 0 → (recordAt os.buffer k).dwOwningPid = p →
          (∀ i, i < readU32 os.buffer 0 → (recordAt os.buffer i).dwOwningPid = p → i = k) →
          connections.get p = some (recordAt os.buffer k)) := by
  obtain ⟨m, hm, hspec⟩ :=
    tableLoop_spec os.buffer (readU32 os.buffer 0) 0 [] (by simpa using hfit)
  have hsize : os.probeSize % 4294967296 ≠ 0 := by
    rw [← buffer_length]
    omega
  have hlen : ¬ os.buffer.length < 4 := by omega
  have hrun : (getTcpTable os).2 = .ret (some m, none) := by
    simp only [Nat.mul_zero, Nat.add_zero] at hm
    simp [getTcpTable, hprobe, hfetch, hsize, buildConnections, hlen, hm]
  refine ⟨m, hrun, hrun, fun p => ?_⟩
  obtain ⟨hlast, hnone⟩ := hspec p
  have hlast' : ∀ k, k < readU32 os.buffer 0 → (recordAt os.buffer k).dwOwningPid = p →
      (∀ i, k < i → i < readU32 os.buffer 0 → (recordAt os.buffer i).dwOwningPid ≠ p) →
      m.get p = some (recordAt os.buffer k) := by
    intro k hk hp hlater
    exact hlast k (Nat.zero_le k) (by omega) hp (fun i hi1 hi2 => hlater i hi1 (by omega))
  refine ⟨⟨?_, ?_⟩, hlast', ?_⟩
  · rintro ⟨r, hr⟩
    by_contra hno
    have hall : ∀ i, 0 ≤ i → i < 0 + readU32 os.buffer 0 →
        (recordAt os.buffer i).dwOwningPid ≠ p :=
      fun i _ hi hp => hno ⟨i, by omega, hp⟩
    rw [hnone hall] at hr
    simp [ConnMap.get, List.lookup] at hr
  · intro hex
    obtain ⟨k, hk, hkp, hlater⟩ := exists_last_owner os.buffer p _ hex
    exact ⟨_, hlast' k hk hkp hlater⟩
  · intro k hk hp honly
    exact hlast' k hk hp (fun i hi1 hi2 hpi => by have := honly i hi2 hpi; omega)

theorem getTcpTable_index_witness :
    4 + 28 * readU32 demoTcpOS.buffer 0 ≤ demoTcpOS.buffer.length ∧
    ∃ connections : ConnMap,
      (getTcpTable demoTcpOS).2 = .ret (some connections, none) ∧
      connections.get 4242 = some demoRow := by
  refine ⟨by decide, ?_⟩
  obtain ⟨m, h1, _, h3⟩ := getTcpTable_index demoTcpOS rfl rfl (by decide)
  exact ⟨m, h1, (h3 4242).2.2 0 (by decide) (by decide) (by decide)⟩

/-- For every result code of the probe other than `ERROR_INSUFFICIENT_BUFFER`,
0 included, the reader returns no table and the non-nil error `Errno(c)`, and the
probe is the only call. -/
theorem getTcpTable_probe_rejected (os : TcpOS) (h : os.probeCode ≠ ERROR_INSUFFICIENT_BUFFER) :
    getTcpTable os = ([.GetTcpTable2 none], .ret (none, some (.Errno os.probeCode))) ∧
    GetTcpTable2 os = ([.GetTcpTable2 none], .ret (none, some (.Errno os.probeCode))) := by
  simp [GetTcpTable2, getTcpTable, h]

/-- When the probe answers `ERROR_INSUFFICIENT_BUFFER` with a non-zero size, the
second call is made with a buffer of that size. -/
theorem getTcpTable_probe_accepted (os : TcpOS) (h : os.probeCode = ERROR_INSUFFICIENT_BUFFER)
    (hsize : os.probeSize % 4294967296 ≠ 0) :
    (getTcpTable os).1 = [.GetTcpTable2 none, .GetTcpTable2 (some (os.probeSize % 4294967296))] ∧
    os.buffer.length = os.probeSize % 4294967296 := by
  refine ⟨?_, buffer_length os⟩
  simp only [getTcpTable, h, hsize, ne_eq, not_true_eq_false, if_false]
  split
  · rfl
  · split <;> rfl

/-- C6, at the input where it fails: the probe answers
`ERROR_INSUFFICIENT_BUFFER` and reports size 0.  `getTcpTable` and `GetTcpTable2`
fault on `&buf[0]`, and the probe is the only call: the second call is not
made. -/
theorem getTcpTable_probe_size_zero :
    getTcpTable emptyProbeOS = ([.GetTcpTable2 none], .fault (.indexOutOfRange 0 0)) ∧
    GetTcpTable2 emptyProbeOS = ([.GetTcpTable2 none], .fault (.indexOutOfRange 0 0)) := by
  constructor <;> rfl

/-! ## Theorems: connection terminator -/

/-- C8 as stated fails: with return value 0 and last error 5, `SetTcpEntry`
does not return nil. -/
theorem setTcpEntry_not_result_code_only :
    ¬ ∀ (os : SetOS) (mib : MIB_TCPROW2),
        ((os.setTcpEntry mib).1 = 0 → (SetTcpEntry os mib).2 = none) ∧
        ((os.setTcpEntry mib).1 ≠ 0 →
          (SetTcpEntry os mib).2 = some (.Errno (os.setTcpEntry mib).1)) := by
  intro h
  have h0 := (h staleErrorOS demoRow).1 rfl
  exact absurd h0 (by decide)

/-- C8, amended. With `c` the return value and `e` the last error of the
set-entry call: `SetTcpEntry` and `killTargetConnection` return `Errno(e)` when
`e` is not 0; otherwise `Errno(c)` when `c` is not 0; otherwise nil. -/
theorem setTcpEntry_result (os : SetOS) (mib : MIB_TCPROW2) :
    (SetTcpEntry os mib).2 =
      (if (os.setTcpEntry mib).2 ≠ 0 then some (.Errno (os.setTcpEntry mib).2)
       else if (os.setTcpEntry mib).1 ≠ 0 then some (.Errno (os.setTcpEntry mib).1)
       else none) ∧
    (killTargetConnection os mib).2 =
      (if (os.setTcpEntry { mib with dwState := 12 }).2 ≠ 0 then
         some (.Errno (os.setTcpEntry { mib with dwState := 12 }).2)
       else if (os.setTcpEntry { mib with dwState := 12 }).1 ≠ 0 then
         some (.Errno (os.setTcpEntry { mib with dwState := 12 }).1)
       else none) := by
  constructor
  · unfold SetTcpEntry
    simp only [ERROR_SUCCESS]
    split
    · rfl
    · split <;> rfl
  · unfold killTargetConnection
    simp only [ERROR_SUCCESS, MIB_TCP_STATE_DELETE_TCB]
    split
    · rfl
    · split <;> rfl

/-! ## Theorems: keyboard hook -/

theorem callbacks_sendKey (h : Nat) (evs : List HookEvent) :
    ((evs.map (fun ev => (callback h ev true).1)).flatten).filter Event.isSendKey =
      (evs.filter HookEvent.isKeyDown).map (fun ev => Event.sendKey (ev.vkCode % 256)) := by
  induction evs with
  | nil => rfl
  | cons ev evs ih =>
    simp only [List.map_cons, List.flatten_cons, List.filter_append, ih]
    by_cases hk : ev.aCode = 0 ∧ ev.wParam = 256
    · simp [callback, callNextHook, WM_KEYDOWN, hk, HookEvent.isKeyDown, List.filter,
        Event.isSendKey]
    · simp [callback, callNextHook, WM_KEYDOWN, hk, HookEvent.isKeyDown, List.filter,
        Event.isSendKey]

theorem callbacks_callNext (h : Nat) (evs : List HookEvent) :
    ((evs.map (fun ev => (callback h ev true).1)).flatten).filter Event.isCallNextHook =
      evs.map (fun ev => Event.CallNextHookEx h ev.wParam ev.lParam) := by
  induction evs with
  | nil => rfl
  | cons ev evs ih =>
    simp only [List.map_cons, List.flatten_cons, List.filter_append, ih]
    by_cases hk : ev.aCode = 0 ∧ ev.wParam = 256
    · simp [callback, callNextHook, WM_KEYDOWN, hk, List.filter, Event.isCallNextHook]
    · simp [callback, callNextHook, WM_KEYDOWN, hk, List.filter, Event.isCallNextHook]

/-- The events of a successful run of `HookKeyboard`, spelled out. -/
theorem HookKeyboard_installed (os : HookOS) (h : Nat)
    (hinst : (setWindowsHook os WH_KEYBOARD_LL).2 = (h, none)) :
    HookKeyboard os =
      [.SetWindowsHookExA 13, .GetMessageW]
        ++ (os.delivered.map (fun ev => (callback h ev true).1)).flatten
        ++ (match (getMesage os h).2 with
            | some err => [.sendError err]
            | none => [])
        ++ [.UnhookWindowsHookEx h, .FreeLibrary] := by
  have htr : (setWindowsHook os WH_KEYBOARD_LL).1 = [.SetWindowsHookExA 13] := by
    unfold setWindowsHook
    dsimp only
    split
    · rfl
    · split <;> rfl
  have hu : (unhookWindowsHook os h).1 = [.UnhookWindowsHookEx h] := by
    unfold unhookWindowsHook
    dsimp only
    split
    · rfl
    · split <;> rfl
  have hg : (getMesage os h).1 =
      .GetMessageW :: (os.delivered.map (fun ev => (callback h ev true).1)).flatten := by
    unfold getMesage
    dsimp only
    split
    · rfl
    · split <;> rfl
  have hs : setWindowsHook os WH_KEYBOARD_LL = ([.SetWindowsHookExA 13], h, none) :=
    Prod.ext htr hinst
  unfold HookKeyboard
  rw [hs]
  dsimp only
  rw [hu]
  rcases hm : getMesage os h with ⟨t2, e2⟩
  rw [hm] at hg
  dsimp only at hg
  subst hg
  cases e2 <;> simp

/-- C5 as stated fails: for a key-down notification whose byte the receiving
side does not take, the callback stays blocked in the send; it makes no
`CallNextHookEx` call and returns nothing. -/
theorem callback_blocks_when_key_not_taken :
    callback 77 ⟨0, 256, 4096, 81, 1⟩ false = ([], none) ∧
    ¬ ∀ (keyboardHook : Nat) (ev : HookEvent) (taken : Bool),
        (callback keyboardHook ev taken).1.filter Event.isCallNextHook =
          [.CallNextHookEx keyboardHook ev.wParam ev.lParam] ∧
        (callback keyboardHook ev taken).2 = some ev.next := by
  refine ⟨rfl, fun h => ?_⟩
  have h2 := (h 77 ⟨0, 256, 4096, 81, 1⟩ false).2
  exact absurd h2 (by decide)

/-- C5, amended. For every notification and every value `keyboardHook` of the
hook variable: the callback sends on the key channel only when `aCode = 0` and
`wParam = WM_KEYDOWN`, and the byte is `vkCode mod 256`.  When the notification
is not such a key-down, or when the receiving side takes the byte, the callback
calls `CallNextHookEx` once, with `keyboardHook`, and returns what that call
returns.  When it is a key-down and the byte is not taken, the callback stays
blocked in the send: no byte is delivered, no `CallNextHookEx` call is made and
nothing is returned.  In a run of `HookKeyboard` whose install returned handle
`h`, every delivered notification is passed on with `h`, and the bytes sent are
those of the key-down notifications, in order. -/
theorem callback_spec (keyboardHook : Nat) (ev : HookEvent) (taken : Bool) (os : HookOS)
    (h : Nat) :
    ((callback keyboardHook ev taken).1.filter Event.isSendKey =
      if ev.aCode = 0 ∧ ev.wParam = 256 ∧ taken = true then [.sendKey (ev.vkCode % 256)]
      else []) ∧
    ((¬ (ev.aCode = 0 ∧ ev.wParam = 256) ∨ taken = true) →
      (callback keyboardHook ev taken).1.filter (fun e => !e.isSendKey) =
        [.CallNextHookEx keyboardHook ev.wParam ev.lParam] ∧
      (callback keyboardHook ev taken).2 = some ev.next) ∧
    (ev.aCode = 0 ∧ ev.wParam = 256 → taken = false →
      callback keyboardHook ev taken = ([], none)) ∧
    ((setWindowsHook os WH_KEYBOARD_LL).2 = (h, none) →
      (HookKeyboard os).filter Event.isCallNextHook =
        os.delivered.map (fun ev => Event.CallNextHookEx h ev.wParam ev.lParam) ∧
      (HookKeyboard os).filter Event.isSendKey =
        (os.delivered.filter HookEvent.isKeyDown).map
          (fun ev => Event.sendKey (ev.vkCode % 256))) := by
  refine ⟨?_, ?_, ?_, ?_⟩
  · by_cases hk : ev.aCode = 0 ∧ ev.wParam = 256
    · cases taken <;>
        simp [callback, callNextHook, WM_KEYDOWN, hk, List.filter, Event.isSendKey]
    · cases taken <;>
        simp [callback, callNextHook, WM_KEYDOWN, hk, List.filter, Event.isSendKey]
  · intro hc
    by_cases hk : ev.aCode = 0 ∧ ev.wParam = 256
    · have ht : taken = true := hc.resolve_left (fun hn => hn hk)
      subst ht
      simp [callback, callNextHook, WM_KEYDOWN, hk, List.filter, Event.isSendKey]
    · simp [callback, callNextHook, WM_KEYDOWN, hk, List.filter, Event.isSendKey]
  · intro hk ht
    subst ht
    simp [callback, WM_KEYDOWN, hk]
  · intro hinst
    rw [HookKeyboard_installed os h hinst]
    constructor
    · simp only [List.filter_append, callbacks_callNext]
      cases (getMesage os h).2 <;> simp [List.filter, Event.isCallNextHook]
    · simp only [List.filter_append, callbacks_sendKey]
      cases (getMesage os h).2 <;> simp [List.filter, Event.isSendKey]

theorem callback_spec_witness :
    (callback 77 ⟨0, 256, 4096, 81, 1⟩ true).2 = some 1 ∧
    callback 77 ⟨0, 256, 4096, 81, 1⟩ false = ([], none) ∧
    (setWindowsHook quietHookOS WH_KEYBOARD_LL).2 = (77, none) ∧
    (HookKeyboard quietHookOS).filter Event.isCallNextHook =
      [.CallNextHookEx 77 256 4096, .CallNextHookEx 77 257 4096] ∧
    (HookKeyboard quietHookOS).filter Event.isSendKey = [.sendKey 81] :=
  ⟨((callback_spec 77 ⟨0, 256, 4096, 81, 1⟩ true quietHookOS 77).2.1 (Or.inr rfl)).2,
    (callback_spec 77 ⟨0, 256, 4096, 81, 1⟩ false quietHookOS 77).2.2.1 ⟨rfl, rfl⟩ rfl,
    rfl,
    ((callback_spec 77 ⟨0, 256, 4096, 81, 1⟩ true quietHookOS 77).2.2.2 rfl).1,
    ((callback_spec 77 ⟨0, 256, 4096, 81, 1⟩ true quietHookOS 77).2.2.2 rfl).2⟩

theorem callbacks_no_getMessage (h : Nat) (evs : List HookEvent) :
    ((evs.map (fun ev => (callback h ev true).1)).flatten).filter Event.isGetMessage = [] := by
  induction evs with
  | nil => rfl
  | cons ev evs ih =>
    simp only [List.map_cons, List.flatten_cons, List.filter_append, ih]
    by_cases hk : ev.aCode = 0 ∧ ev.wParam = 256
    · simp [callback, callNextHook, WM_KEYDOWN, hk, List.filter, Event.isGetMessage]
    · simp [callback, callNextHook, WM_KEYDOWN, hk, List.filter, Event.isGetMessage]

theorem callbacks_no_unhook (h : Nat) (evs : List HookEvent) :
    ((evs.map (fun ev => (callback h ev true).1)).flatten).filter Event.isUnhook = [] := by
  induction evs with
  | nil => rfl
  | cons ev evs ih =>
    simp only [List.map_cons, List.flatten_cons, List.filter_append, ih]
    by_cases hk : ev.aCode = 0 ∧ ev.wParam = 256
    · simp [callback, callNextHook, WM_KEYDOWN, hk, List.filter, Event.isUnhook]
    · simp [callback, callNextHook, WM_KEYDOWN, hk, List.filter, Event.isUnhook]

/-- The events of a run of `HookKeyboard` whose install fails. -/
theorem HookKeyboard_install_failed (os : HookOS) (err : GoError)
    (hinst : (setWindowsHook os WH_KEYBOARD_LL).2.2 = some err) :
    HookKeyboard os = [.SetWindowsHookExA 13, .sendError err, .FreeLibrary] := by
  have htr : (setWindowsHook os WH_KEYBOARD_LL).1 = [.SetWindowsHookExA 13] := by
    unfold setWindowsHook
    dsimp only
    split
    · rfl
    · split <;> rfl
  unfold HookKeyboard
  rcases hs : setWindowsHook os WH_KEYBOARD_LL with ⟨t1, k, e⟩
  rw [hs] at hinst htr
  dsimp only at hinst htr
  subst hinst htr
  rfl

/-- C9. If the install fails with error `err`, the events of `HookKeyboard` are
the install call, the send of `err` on the error channel and `FreeLibrary`: no
message retrieval and no uninstall.  If the install returns handle `h`, the
events end with `UnhookWindowsHookEx h` followed by `FreeLibrary`, and the events
before them contain a message retrieval and no uninstall call: the uninstall is
made once, with `h`, after the last retrieval. -/
theorem HookKeyboard_lifecycle (os : HookOS) :
    (∀ err, (setWindowsHook os WH_KEYBOARD_LL).2.2 = some err →
      HookKeyboard os = [.SetWindowsHookExA 13, .sendError err, .FreeLibrary] ∧
      (HookKeyboard os).filter Event.isGetMessage = [] ∧
      (HookKeyboard os).filter Event.isUnhook = []) ∧
    (∀ h, (setWindowsHook os WH_KEYBOARD_LL).2 = (h, none) →
      (HookKeyboard os).filter Event.isUnhook = [.UnhookWindowsHookEx h] ∧
      ∃ pre, HookKeyboard os = pre ++ [.UnhookWindowsHookEx h, .FreeLibrary] ∧
        pre.filter Event.isUnhook = [] ∧ pre.filter Event.isGetMessage = [.GetMessageW]) := by
  constructor
  · intro err hinst
    rw [HookKeyboard_install_failed os err hinst]
    exact ⟨rfl, rfl, rfl⟩
  · intro h hinst
    rw [HookKeyboard_installed os h hinst]
    constructor
    · simp only [List.filter_append, callbacks_no_unhook]
      cases (getMesage os h).2 <;> simp [List.filter, Event.isUnhook]
    · refine ⟨_, rfl, ?_, ?_⟩
      · simp only [List.filter_append, callbacks_no_unhook]
        cases (getMesage os h).2 <;> simp [List.filter, Event.isUnhook]
      · simp only [List.filter_append, callbacks_no_getMessage]
        cases (getMesage os h).2 <;> simp [List.filter, Event.isGetMessage]

theorem HookKeyboard_lifecycle_witness :
    (setWindowsHook failingHookOS WH_KEYBOARD_LL).2.2 = some (.Errno 1404) ∧
    HookKeyboard failingHookOS = [.SetWindowsHookExA 13, .sendError (.Errno 1404), .FreeLibrary] ∧
    (setWindowsHook busyHookOS WH_KEYBOARD_LL).2 = (77, none) ∧
    (HookKeyboard busyHookOS).filter Event.isUnhook = [.UnhookWindowsHookEx 77] :=
  ⟨rfl, ((HookKeyboard_lifecycle failingHookOS).1 (.Errno 1404) rfl).1, rfl,
    ((HookKeyboard_lifecycle busyHookOS).2 77 rfl).1⟩

/-- After a successful install `HookKeyboard` calls `GetMessageW` once, whatever
that call returns. -/
theorem HookKeyboard_retrievals (os : HookOS) (h : Nat)
    (hinst : (setWindowsHook os WH_KEYBOARD_LL).2 = (h, none)) :
    (HookKeyboard os).filter Event.isGetMessage = [.GetMessageW] := by
  rw [HookKeyboard_installed os h hinst]
  simp only [List.filter_append, callbacks_no_getMessage]
  cases (getMesage os h).2 <;> simp [List.filter, Event.isGetMessage]

/-- C10, at the input where it fails: the install returns handle 77 and the
first `GetMessageW` returns without error.  `HookKeyboard` then uninstalls the
hook and returns: one retrieval is made, not a second one, and nothing is sent
on the error channel. -/
theorem HookKeyboard_returns_after_first_message :
    (setWindowsHook quietHookOS WH_KEYBOARD_LL).2 = (77, none) ∧
    (getMesage quietHookOS 77).2 = none ∧
    HookKeyboard quietHookOS =
      [.SetWindowsHookExA 13, .GetMessageW, .sendKey 81, .CallNextHookEx 77 256 4096,
        .CallNextHookEx 77 257 4096, .UnhookWindowsHookEx 77, .FreeLibrary] ∧
    (HookKeyboard quietHookOS).filter Event.isGetMessage = [.GetMessageW] ∧
    (HookKeyboard quietHookOS).filter Event.isSendError = [] := by
  refine ⟨rfl, rfl, rfl, rfl, rfl⟩

/-! ## Theorems: process locator -/

/-- The model of `strings.Contains` decides whether `sub` is a contiguous
sublist of `s`. -/
theorem Contains_iff_infix (s sub : List Nat) : Contains s sub = true ↔ sub <:+: s := by
  induction s with
  | nil => simp [Contains, List.isPrefixOf_iff_prefix]
  | cons c s ih =>
    simp [Contains, List.isPrefixOf_iff_prefix, List.infix_cons_iff, ih]

theorem scanModules_events (v : Variant) (os : ProcOS) (lower : List Nat → List Nat)
    (h : Nat) (hM : Nat → Nat) :
    ∀ (todo i : Nat), ∀ e ∈ (scanModules v os lower h hM todo i).1, e.isModuleQuery = true := by
  intro todo
  induction todo with
  | zero =>
    intro i e he
    simp [scanModules] at he
  | succ todo ih =>
    intro i e he
    unfold scanModules at he
    dsimp only at he
    split at he
    · simp at he
    · split at he
      · simp at he
        subst he
        rfl
      · split at he
        · simp at he
          subst he
          rfl
        · split at he
          · simp at he
            subst he
            rfl
          · split at he
            · simp at he
              subst he
              rfl
            · simp only [List.mem_cons] at he
              rcases he with he | he
              · subst he
                rfl
              · exact ih (i + 1) e he

theorem scanProcess_events (v : Variant) (os : ProcOS) (lower : List Nat → List Nat) (h : Nat) :
    ∀ e ∈ (scanProcess v os lower h).1, e.isModuleQuery = true := by
  intro e he
  unfold scanProcess at he
  dsimp only at he
  split at he
  · simp at he
    subst he
    rfl
  · split at he
    · simp at he
      subst he
      rfl
    · simp only [List.mem_cons] at he
      rcases he with he | he
      · subst he
        rfl
      · exact scanModules_events v os lower h _ _ _ e he

/-- The module loop over entries `i .. i + todo - 1` whose fetches all succeed
and none of which matches moves on to the next process. -/
theorem scanModules_next (v : Variant) (os : ProcOS) (lower : List Nat → List Nat) (h : Nat) :
    ∀ (todo i : Nat),
      (∀ j, i ≤ j → j < i + todo → j < 1024 ∧ (nameFetch os h j).winErr = 0 ∧
        0 < (nameFetch os h j).bytesWritten ∧ (nameFetch os h j).bytesWritten ≤ v.nameCap) →
      (∀ j, i ≤ j → j < i + todo → Contains (lower (moduleName os h j)) exile ≠ true) →
      (scanModules v os lower h (os.enumProcessModules h).hModules todo i).2 = .next := by
  intro todo
  induction todo with
  | zero =>
    intro i _ _
    rfl
  | succ todo ih =>
    intro i hok hno
    obtain ⟨h1, h2, h3, h4⟩ := hok i (le_refl i) (by omega)
    have hm := hno i (le_refl i) (by omega)
    unfold nameFetch at h2 h3 h4
    unfold moduleName nameFetch at hm
    unfold scanModules
    dsimp only
    rw [if_neg (by omega), if_neg (by simpa [ERROR_SUCCESS] using h2), if_neg (by omega),
      if_neg (by omega), if_neg hm]
    exact ih (i + 1) (fun j hj1 hj2 => hok j (by omega) (by omega))
      (fun j hj1 hj2 => hno j (by omega) (by omega))

/-- The module loop over entries `i .. i + todo - 1` whose fetches all succeed
and one of which matches reports a match. -/
theorem scanModules_found (v : Variant) (os : ProcOS) (lower : List Nat → List Nat) (h : Nat) :
    ∀ (todo i : Nat),
      (∀ j, i ≤ j → j < i + todo → j < 1024 ∧ (nameFetch os h j).winErr = 0 ∧
        0 < (nameFetch os h j).bytesWritten ∧ (nameFetch os h j).bytesWritten ≤ v.nameCap) →
      (∃ j, i ≤ j ∧ j < i + todo ∧ Contains (lower (moduleName os h j)) exile = true) →
      (scanModules v os lower h (os.enumProcessModules h).hModules todo i).2 = .found := by
  intro todo
  induction todo with
  | zero =>
    rintro i _ ⟨j, hj1, hj2, _⟩
    omega
  | succ todo ih =>
    rintro i hok ⟨j, hj1, hj2, hj⟩
    obtain ⟨h1, h2, h3, h4⟩ := hok i (le_refl i) (by omega)
    unfold nameFetch at h2 h3 h4
    unfold scanModules
    dsimp only
    rw [if_neg (by omega), if_neg (by simpa [ERROR_SUCCESS] using h2), if_neg (by omega),
      if_neg (by omega)]
    by_cases hm : Contains (lower (moduleName os h i)) exile = true
    · have hm2 := hm
      unfold moduleName nameFetch at hm2
      rw [if_pos hm2]
    · have hm2 := hm
      unfold moduleName nameFetch at hm2
      rw [if_neg hm2]
      have hne : j ≠ i := fun hji => hm (hji ▸ hj)
      exact ih (i + 1) (fun k hk1 hk2 => hok k (by omega) (by omega))
        ⟨j, by omega, by omega, hj⟩

theorem openedPid_moduleQueries (t : List Event) (ht : ∀ e ∈ t, e.isModuleQuery = true) :
    t.filterMap Event.openedPid = [] := by
  induction t with
  | nil => rfl
  | cons e t ih =>
    have he := ht e (List.mem_cons_self e t)
    have hrest := ih (fun x hx => ht x (List.mem_cons_of_mem e hx))
    cases e <;> simp_all [Event.isModuleQuery, Event.openedPid, List.filterMap_cons]

theorem filter_ne_open_moduleQueries (d : Nat) (t : List Event)
    (ht : ∀ e ∈ t, e.isModuleQuery = true) :
    t.filter (fun e => decide (e ≠ Event.OpenProcess d)) = t := by
  rw [List.filter_eq_self]
  intro e he
  have hq := ht e he
  cases e <;> simp_all [Event.isModuleQuery]

/-- Scan of an opened process whose enumeration and fetches succeed. -/
theorem scanProcess_result (v : Variant) (os : ProcOS) (lower : List Nat → List Nat) (h : Nat)
    (herr : (os.enumProcessModules h).winErr = 0)
    (hcode : (os.enumProcessModules h).winErrCode ≠ 0)
    (hcount : moduleCount os h ≤ 1024)
    (hnames : ∀ i, i < moduleCount os h → (nameFetch os h i).winErr = 0 ∧
      0 < (nameFetch os h i).bytesWritten ∧ (nameFetch os h i).bytesWritten ≤ v.nameCap) :
    ((∃ i, i < moduleCount os h ∧ Contains (lower (moduleName os h i)) exile = true) →
      (scanProcess v os lower h).2 = .found) ∧
    ((¬ ∃ i, i < moduleCount os h ∧ Contains (lower (moduleName os h i)) exile = true) →
      (scanProcess v os lower h).2 = .next) := by
  have hok : ∀ j, 0 ≤ j → j < 0 + moduleCount os h → j < 1024 ∧ (nameFetch os h j).winErr = 0 ∧
      0 < (nameFetch os h j).bytesWritten ∧ (nameFetch os h j).bytesWritten ≤ v.nameCap :=
    fun j _ hj => ⟨by omega, hnames j (by omega)⟩
  have hunf : (scanProcess v os lower h).2 =
      (scanModules v os lower h (os.enumProcessModules h).hModules (moduleCount os h) 0).2 := by
    unfold scanProcess
    dsimp only
    rw [if_neg (by simpa [ERROR_SUCCESS] using herr), if_neg hcode]
    rfl
  constructor
  · rintro ⟨i, hi, hm⟩
    rw [hunf]
    exact scanModules_found v os lower h _ 0 hok ⟨i, Nat.zero_le i, by omega, hm⟩
  · intro hno
    rw [hunf]
    exact scanModules_next v os lower h _ 0 hok
      (fun j _ hj hm => hno ⟨j, by omega, hm⟩)

/-- First match wins, for either copy of the scan: the ids before `P` are 0 or
are processes that open and scan successfully without a match, and `P` opens,
scans successfully and matches. -/
theorem scanPIDs_first_match (v : Variant) (os : ProcOS) (lower : List Nat → List Nat)
    (P : Nat) (post : List Nat) (hP0 : P ≠ 0) (hPok : Succeeds v.nameCap os P)
    (hP : hasTargetModule os lower P) :
    ∀ pre : List Nat,
      (∀ q ∈ pre, q ≠ 0 → Succeeds v.nameCap os q ∧ ¬ hasTargetModule os lower q) →
      (scanPIDs v os lower (pre ++ P :: post)).2 = .ret (P, none) ∧
      (scanPIDs v os lower (pre ++ P :: post)).1.filterMap Event.openedPid =
        pre.filter (fun q => decide (q ≠ 0)) ++ [P] := by
  intro pre
  induction pre with
  | nil =>
    intro _
    obtain ⟨ho, he, hc, hn, hf⟩ := hPok
    have hfound := (scanProcess_result v os lower _ he hc hn hf).1 hP
    have hev := scanProcess_events v os lower (os.openProcess P).1
    rcases hsp : scanProcess v os lower (os.openProcess P).1 with ⟨tr, sc⟩
    rw [hsp] at hfound hev
    dsimp only at hfound hev
    subst hfound
    simp only [List.nil_append, scanPIDs, if_neg hP0, ho]
    simp [hsp, Event.openedPid, List.filterMap_cons, openedPid_moduleQueries tr hev]
  | cons q pre ih =>
    intro hpre
    have ih' := ih (fun x hx => hpre x (List.mem_cons_of_mem q hx))
    by_cases hq : q = 0
    · subst hq
      simpa [scanPIDs] using ih'
    · obtain ⟨⟨ho, he, hc, hn, hf⟩, hnomatch⟩ := hpre q (List.mem_cons_self q pre) hq
      have hnext := (scanProcess_result v os lower _ he hc hn hf).2 hnomatch
      have hev := scanProcess_events v os lower (os.openProcess q).1
      rcases hsp : scanProcess v os lower (os.openProcess q).1 with ⟨tr, sc⟩
      rw [hsp] at hnext hev
      dsimp only at hnext hev
      subst hnext
      simp only [List.cons_append, scanPIDs, if_neg hq, ho]
      simp [hsp, Event.openedPid, List.filterMap_cons, List.filterMap_append,
        openedPid_moduleQueries tr hev, ih', hq]

theorem Succeeds.mono {cap cap2 : Nat} (hcap : cap ≤ cap2) {os : ProcOS} {p : Nat}
    (h : Succeeds cap os p) : Succeeds cap2 os p := by
  obtain ⟨ho, he, hc, hn, hf⟩ := h
  exact ⟨ho, he, hc, hn, fun i hi => ⟨(hf i hi).1, (hf i hi).2.1, le_trans (hf i hi).2.2 hcap⟩⟩

/-- First match wins when the counts fit the buffers.  Let the candidate list be
`pre ++ P :: post`, where `P` is non-zero and has a loaded module whose
lower-cased name contains "exile", every id of `pre` is 0 or has no such module,
and `Succeeds` holds for the non-zero ids of `pre` and for `P`.  Then
`getTargetPID` returns `P` with a nil error, and the processes it opens are the
non-zero ids of `pre`, in order, followed by `P`: no id of `post` is opened after
`P`. The same holds for the copy in `tcp_disconnect/tcp_disconnect.go`. -/
theorem getTargetPID_first_match (os : ProcOS) (lower : List Nat → List Nat)
    (pre post : List Nat) (P : Nat)
    (hpre : ∀ q ∈ pre, q ≠ 0 → Succeeds 500 os q ∧ ¬ hasTargetModule os lower q)
    (hP0 : P ≠ 0) (hPok : Succeeds 500 os P) (hP : hasTargetModule os lower P) :
    (getTargetPID os lower (pre ++ P :: post)).2 = .ret (P, none) ∧
    (getTargetPID os lower (pre ++ P :: post)).1.filterMap Event.openedPid =
      pre.filter (fun q => decide (q ≠ 0)) ++ [P] ∧
    (getTargetPID_tcp_disconnect os lower (pre ++ P :: post)).2 = .ret (P, none) ∧
    (getTargetPID_tcp_disconnect os lower (pre ++ P :: post)).1.filterMap Event.openedPid =
      pre.filter (fun q => decide (q ≠ 0)) ++ [P] := by
  have h1 := scanPIDs_first_match Variant.main os lower P post hP0 hPok hP pre hpre
  have h2 := scanPIDs_first_match Variant.tcp_disconnect os lower P post hP0
    (Succeeds.mono (by decide : (500 : Nat) ≤ 1024) hPok) hP pre
    (fun q hq hq0 => ⟨Succeeds.mono (by decide : (500 : Nat) ≤ 1024) (hpre q hq hq0).1,
      (hpre q hq hq0).2⟩)
  exact ⟨h1.1, h1.2, h2.1, h2.2⟩

theorem getTargetPID_first_match_witness :
    (getTargetPID demoProcOS asciiToLower ([0, 8] ++ 4242 :: [9])).2 = .ret (4242, none) ∧
    (getTargetPID demoProcOS asciiToLower ([0, 8] ++ 4242 :: [9])).1.filterMap Event.openedPid =
      [8, 4242] := by
  have h := getTargetPID_first_match demoProcOS asciiToLower [0, 8] [9] 4242
    (by
      intro q hq hq0
      simp only [List.mem_cons, List.mem_singleton, List.not_mem_nil, or_false] at hq
      rcases hq with rfl | rfl
      · exact absurd rfl hq0
      · exact ⟨by decide, by decide⟩)
    (by decide) (by decide) (by decide)
  exact ⟨h.1, h.2.1⟩

/-- An id whose open is refused with `ERROR_ACCESS_DENIED` is skipped: the scan
of a list gives the result of the scan of the list without that id, and makes
the same calls apart from the refused opens. -/
theorem scanPIDs_skip_denied (v : Variant) (os : ProcOS) (lower : List Nat → List Nat) (d : Nat)
    (hd : (os.openProcess d).2 = some (.Errno ERROR_ACCESS_DENIED)) :
    ∀ pids : List Nat,
      (scanPIDs v os lower pids).2 =
        (scanPIDs v os lower (pids.filter (fun q => decide (q ≠ d)))).2 ∧
      (scanPIDs v os lower pids).1.filter (fun e => decide (e ≠ Event.OpenProcess d)) =
        (scanPIDs v os lower (pids.filter (fun q => decide (q ≠ d)))).1 := by
  intro pids
  induction pids with
  | nil => exact ⟨rfl, rfl⟩
  | cons p rest ih =>
    by_cases hpd : p = d
    · subst hpd
      have hf : (p :: rest).filter (fun q => decide (q ≠ p)) =
          rest.filter (fun q => decide (q ≠ p)) := by simp
      rw [hf]
      by_cases hp0 : p = 0
      · simpa [scanPIDs, hp0] using ih
      · simp only [scanPIDs, if_neg hp0, hd, if_true]
        simpa using ih
    · have hf : (p :: rest).filter (fun q => decide (q ≠ d)) =
          p :: rest.filter (fun q => decide (q ≠ d)) := by simp [hpd]
      rw [hf]
      have hcall : Event.OpenProcess p ≠ Event.OpenProcess d := by
        intro h
        injection h with h
        exact hpd h
      by_cases hp0 : p = 0
      · simpa [scanPIDs, hp0] using ih
      · simp only [scanPIDs, if_neg hp0]
        by_cases hden : (os.openProcess p).2 = some (.Errno ERROR_ACCESS_DENIED)
        · simp only [if_pos hden]
          simpa [List.filter_cons, hcall] using ih
        · simp only [if_neg hden]
          rcases hop : (os.openProcess p).2 with _ | err
          · have hev := scanProcess_events v os lower (os.openProcess p).1
            rcases hsp : scanProcess v os lower (os.openProcess p).1 with ⟨tr, sc⟩
            rw [hsp] at hev
            dsimp only at hev
            have hne : ∀ a ∈ tr, ¬ a = Event.OpenProcess d := by
              intro a ha h
              have hq := hev a ha
              subst h
              simp [Event.isModuleQuery] at hq
            have htr : tr.filter (fun e => !decide (e = Event.OpenProcess d)) = tr := by
              simpa using filter_ne_open_moduleQueries d tr hev
            have ih2 := ih
            simp only [ne_eq, decide_not] at ih2
            cases sc <;>
              simp [List.filter_cons, hcall, List.filter_append, htr, hne, ih2.1, ih2.2]
          · simp [List.filter_cons, hcall]

/-- C7. If opening id `d` fails with `ERROR_ACCESS_DENIED`, then for every
candidate list `getTargetPID` (either copy) returns what it returns on the list
with `d` removed, and its calls are the calls of that scan plus the refused
opens of `d`: the scan goes on to every id after `d`. -/
theorem getTargetPID_access_denied_skipped (os : ProcOS) (lower : List Nat → List Nat)
    (pids : List Nat) (d : Nat)
    (hd : (os.openProcess d).2 = some (.Errno ERROR_ACCESS_DENIED)) :
    (getTargetPID os lower pids).2 =
      (getTargetPID os lower (pids.filter (fun q => decide (q ≠ d)))).2 ∧
    (getTargetPID os lower pids).1.filter (fun e => decide (e ≠ Event.OpenProcess d)) =
      (getTargetPID os lower (pids.filter (fun q => decide (q ≠ d)))).1 ∧
    (getTargetPID_tcp_disconnect os lower pids).2 =
      (getTargetPID_tcp_disconnect os lower (pids.filter (fun q => decide (q ≠ d)))).2 ∧
    (getTargetPID_tcp_disconnect os lower pids).1.filter (fun e => decide (e ≠ Event.OpenProcess d)) =
      (getTargetPID_tcp_disconnect os lower (pids.filter (fun q => decide (q ≠ d)))).1 :=
  ⟨(scanPIDs_skip_denied Variant.main os lower d hd pids).1,
    (scanPIDs_skip_denied Variant.main os lower d hd pids).2,
    (scanPIDs_skip_denied Variant.tcp_disconnect os lower d hd pids).1,
    (scanPIDs_skip_denied Variant.tcp_disconnect os lower d hd pids).2⟩

theorem getTargetPID_access_denied_skipped_witness :
    (demoProcOS.openProcess 4).2 = some (.Errno ERROR_ACCESS_DENIED) ∧
    (getTargetPID demoProcOS asciiToLower [0, 4, 4242]).2 = .ret (4242, none) ∧
    (getTargetPID_tcp_disconnect demoProcOS asciiToLower [0, 4, 4242]).2 = .ret (4242, none) := by
  have h := getTargetPID_access_denied_skipped demoProcOS asciiToLower [0, 4, 4242] 4 rfl
  refine ⟨rfl, h.1.trans (by decide), h.2.2.1.trans (by decide)⟩

/-! ## Theorems: control loop -/

theorem SetTcpEntry_trace (os : SetOS) (mib : MIB_TCPROW2) :
    (SetTcpEntry os mib).1 = [.SetTcpEntry mib] := by
  unfold SetTcpEntry
  dsimp only
  split
  · rfl
  · split <;> rfl

theorem killTargetConnection_trace (os : SetOS) (mib : MIB_TCPROW2) :
    (killTargetConnection os mib).1 = [.SetTcpEntry (deleteRecord mib)] := by
  unfold killTargetConnection
  dsimp only
  split
  · rfl
  · split <;> rfl

/-- The trigger path of `start` once the wait has returned record `r`. -/
theorem startOnKey_of_wait (lower : List Nat → List Nat) (worlds : Nat → World) (set : SetOS)
    (fuel polls : Nat) (t : List Event) (r : MIB_TCPROW2)
    (hwait : waitForPoeConnection lower worlds fuel 0 = some ⟨polls, t, .ret (r, none)⟩) :
    startOnKey lower worlds set fuel 81 =
      some (polls, t ++ [.SetTcpEntry (deleteRecord r)], .ret ()) := by
  unfold startOnKey
  rw [if_neg (by decide), hwait]
  dsimp only
  rw [SetTcpEntry_trace]
  rfl

/-- C2. For every record `r`: the record `killTargetConnection r` submits to
the set-entry call, and the record the trigger path of `start` submits through
`SetTcpEntry` once the wait has returned `r`, has state 12 and the local address,
local port, remote address, remote port, owning pid and offload state of `r`. -/
theorem terminator_changes_only_state (os : SetOS) (r : MIB_TCPROW2)
    (lower : List Nat → List Nat) (worlds : Nat → World) (fuel polls : Nat) (t : List Event) :
    (killTargetConnection os r).1 =
      [.SetTcpEntry ⟨12, r.dwLocalAddr, r.dwLocalPort, r.dwRemoteAddr, r.dwRemotePort,
        r.dwOwningPid, r.dwOffloadState⟩] ∧
    (waitForPoeConnection lower worlds fuel 0 = some ⟨polls, t, .ret (r, none)⟩ →
      startOnKey lower worlds os fuel 81 =
        some (polls, t ++ [.SetTcpEntry ⟨12, r.dwLocalAddr, r.dwLocalPort, r.dwRemoteAddr,
          r.dwRemotePort, r.dwOwningPid, r.dwOffloadState⟩], .ret ())) :=
  ⟨killTargetConnection_trace os r, startOnKey_of_wait lower worlds os fuel polls t r⟩

theorem terminator_changes_only_state_witness :
    waitForPoeConnection asciiToLower demoWorlds 2 0 =
      some ⟨2, demoPollTrace, .ret (demoRow, none)⟩ ∧
    startOnKey asciiToLower demoWorlds acceptingOS 2 81 =
      some (2, demoPollTrace ++ [.SetTcpEntry ⟨12, 2130706433, 6112, 151587081, 443, 4242, 0⟩],
        .ret ()) :=
  ⟨by decide,
    (terminator_changes_only_state acceptingOS demoRow asciiToLower demoWorlds 2 2
      demoPollTrace).2 (by decide)⟩

theorem getTcpTable_no_set (os : TcpOS) :
    (GetTcpTable2 os).1.filter Event.isSetTcpEntry = [] := by
  unfold GetTcpTable2 getTcpTable
  dsimp only
  split
  · rfl
  · split
    · rfl
    · split
      · rfl
      · split <;> rfl

theorem moduleQueries_no_set (t : List Event) (ht : ∀ e ∈ t, e.isModuleQuery = true) :
    t.filter Event.isSetTcpEntry = [] := by
  rw [List.filter_eq_nil_iff]
  intro e he
  have hq := ht e he
  cases e <;> simp_all [Event.isModuleQuery, Event.isSetTcpEntry]

theorem scanPIDs_no_set (v : Variant) (os : ProcOS) (lower : List Nat → List Nat) :
    ∀ pids : List Nat, (scanPIDs v os lower pids).1.filter Event.isSetTcpEntry = [] := by
  intro pids
  induction pids with
  | nil => rfl
  | cons p rest ih =>
    by_cases hp0 : p = 0
    · simpa [scanPIDs, hp0] using ih
    · simp only [scanPIDs, if_neg hp0]
      split
      · simpa [List.filter_cons, Event.isSetTcpEntry] using ih
      · rcases hop : (os.openProcess p).2 with _ | err
        · have hev := scanProcess_events v os lower (os.openProcess p).1
          rcases hsp : scanProcess v os lower (os.openProcess p).1 with ⟨tr, sc⟩
          rw [hsp] at hev
          dsimp only at hev
          have htr := moduleQueries_no_set tr hev
          cases sc <;> simp [List.filter_cons, Event.isSetTcpEntry, List.filter_append, htr, ih]
        · simp [List.filter_cons, Event.isSetTcpEntry]

theorem EnumProcesses_trace (r : EnumProcessesResult) :
    (EnumProcesses r).1 = [.EnumProcesses] := by
  unfold EnumProcesses
  split
  · rfl
  · split <;> rfl

/-- A poll that sees the target process and the table entry `entry` returns that
entry, or reports that the connection is not there yet; it makes no set-entry
call. -/
theorem getPoeConnection_of_sees (lower : List Nat → List Nat) (w : World) (pid : Nat)
    (entry : Option MIB_TCPROW2) (h : PollSees lower w pid entry) :
    (getPoeConnection lower w).2 =
      entry.elim (.ret (MIB_TCPROW2.zero, some .ErrTargetConnectionNotFound))
        (fun mib => .ret (mib, none)) ∧
    (getPoeConnection lower w).1.filter Event.isSetTcpEntry = [] := by
  obtain ⟨tbl, pids, h1, h2, h3, h4⟩ := h
  have n1 := getTcpTable_no_set w.tcp
  have n2 := EnumProcesses_trace w.enum
  have n3 := scanPIDs_no_set Variant.tcp_disconnect w.proc lower pids
  unfold getPoeConnection
  rcases hg : GetTcpTable2 w.tcp with ⟨t1, o1⟩
  rw [hg] at h1 n1
  dsimp only at h1 n1
  subst h1
  rcases he : EnumProcesses w.enum with ⟨t2, o2⟩
  rw [he] at h2 n2
  dsimp only at h2 n2
  subst h2 n2
  dsimp only [Option.getD]
  rcases ht : getTargetPID_tcp_disconnect w.proc lower pids with ⟨t3, o3⟩
  have n3' : t3.filter Event.isSetTcpEntry = [] := by
    have := n3
    unfold getTargetPID_tcp_disconnect at ht
    rw [ht] at this
    exact this
  rw [ht] at h3
  dsimp only at h3
  subst h3
  dsimp only
  rw [h4]
  cases entry <;> simp [List.filter_append, n1, n3', List.filter, Event.isSetTcpEntry]

/-- Polls `n .. n + k - 1` miss and poll `n + k` finds record `r`: with more than
`k` polls allowed, the wait started at poll `n` returns `r` after `k + 1` polls
and makes no set-entry call. -/
theorem waitForPoeConnection_spec (lower : List Nat → List Nat) (worlds : Nat → World)
    (pid : Nat) (r : MIB_TCPROW2) :
    ∀ (k n fuel : Nat), k < fuel →
      (∀ j, j < k → PollSees lower (worlds (n + j)) pid none) →
      PollSees lower (worlds (n + k)) pid (some r) →
      ∃ t, waitForPoeConnection lower worlds fuel n = some ⟨k + 1, t, .ret (r, none)⟩ ∧
        t.filter Event.isSetTcpEntry = [] := by
  intro k
  induction k with
  | zero =>
    intro n fuel hfuel _ hhit
    obtain ⟨fuel, rfl⟩ : ∃ f, fuel = f + 1 := ⟨fuel - 1, by omega⟩
    obtain ⟨hout, htr⟩ := getPoeConnection_of_sees lower (worlds n) pid (some r) hhit
    rcases hg : getPoeConnection lower (worlds n) with ⟨t, o⟩
    rw [hg] at hout htr
    dsimp only at hout htr
    subst hout
    refine ⟨t, ?_, htr⟩
    simp [waitForPoeConnection, hg]
  | succ k ih =>
    intro n fuel hfuel hmiss hhit
    obtain ⟨fuel, rfl⟩ : ∃ f, fuel = f + 1 := ⟨fuel - 1, by omega⟩
    obtain ⟨hout, htr⟩ := getPoeConnection_of_sees lower (worlds n) pid none
      (by simpa using hmiss 0 (by omega))
    rcases hg : getPoeConnection lower (worlds n) with ⟨t, o⟩
    rw [hg] at hout htr
    dsimp only at hout htr
    subst hout
    obtain ⟨t2, hw, htr2⟩ := ih (n + 1) fuel (by omega)
      (fun j hj => by
        have := hmiss (j + 1) (by omega)
        rwa [show n + (j + 1) = n + 1 + j by omega] at this)
      (by rwa [show n + (k + 1) = n + 1 + k by omega] at hhit)
    refine ⟨t ++ t2, ?_, by simp [List.filter_append, htr, htr2]⟩
    simp [waitForPoeConnection, hg, hw]

/-- C4. Let the target process id `pid` be located on every poll, let polls
`0 .. k - 1` find no table entry for it and let poll `k` find the entry `r`.
Then, with more than `k` polls allowed, the wait returns `r` after exactly
`k + 1` polls, and the handling of one trigger key makes exactly one set-entry
call, after those polls, with the fields of `r` and state 12. -/
theorem race_retry (lower : List Nat → List Nat) (worlds : Nat → World) (set : SetOS)
    (pid k fuel : Nat) (r : MIB_TCPROW2) (hfuel : k < fuel)
    (hmiss : ∀ n, n < k → PollSees lower (worlds n) pid none)
    (hhit : PollSees lower (worlds k) pid (some r)) :
    ∃ t : List Event,
      waitForPoeConnection lower worlds fuel 0 = some ⟨k + 1, t, .ret (r, none)⟩ ∧
      startOnKey lower worlds set fuel 81 =
        some (k + 1, t ++ [.SetTcpEntry ⟨12, r.dwLocalAddr, r.dwLocalPort, r.dwRemoteAddr,
          r.dwRemotePort, r.dwOwningPid, r.dwOffloadState⟩], .ret ()) ∧
      (t ++ [Event.SetTcpEntry ⟨12, r.dwLocalAddr, r.dwLocalPort, r.dwRemoteAddr,
          r.dwRemotePort, r.dwOwningPid, r.dwOffloadState⟩]).filter Event.isSetTcpEntry =
        [.SetTcpEntry ⟨12, r.dwLocalAddr, r.dwLocalPort, r.dwRemoteAddr, r.dwRemotePort,
          r.dwOwningPid, r.dwOffloadState⟩] := by
  obtain ⟨t, hw, htr⟩ := waitForPoeConnection_spec lower worlds pid r k 0 fuel hfuel
    (fun j hj => by simpa using hmiss j hj) (by simpa using hhit)
  refine ⟨t, hw, startOnKey_of_wait lower worlds set fuel (k + 1) t r hw, ?_⟩
  simp [List.filter_append, htr, List.filter, Event.isSetTcpEntry]

theorem race_retry_witness :
    ∃ t : List Event,
      waitForPoeConnection asciiToLower demoWorlds 2 0 = some ⟨2, t, .ret (demoRow, none)⟩ ∧
      startOnKey asciiToLower demoWorlds acceptingOS 2 81 =
        some (2, t ++ [.SetTcpEntry ⟨12, 2130706433, 6112, 151587081, 443, 4242, 0⟩], .ret ()) ∧
      (t ++ [Event.SetTcpEntry ⟨12, 2130706433, 6112, 151587081, 443, 4242, 0⟩]).filter
          Event.isSetTcpEntry =
        [.SetTcpEntry ⟨12, 2130706433, 6112, 151587081, 443, 4242, 0⟩] :=
  race_retry asciiToLower demoWorlds acceptingOS 4242 1 2 demoRow (by decide)
    (by
      intro n hn
      have hn0 : n = 0 := by omega
      subst hn0
      exact ⟨[(7, ⟨2, 0, 80, 0, 0, 7, 0⟩)], [0, 4, 4242], by decide, by decide, by decide,
        by decide⟩)
    ⟨[(7, ⟨2, 0, 80, 0, 0, 7, 0⟩), (4242, demoRow)], [0, 4, 4242], by decide, by decide,
      by decide, by decide⟩

/-! ## Theorems: a locator that finds nothing -/

/-- A scan in which every id is 0, is refused with `ERROR_ACCESS_DENIED`, or is
scanned successfully without a match, reports `ErrTargetPIDNotFound`. -/
theorem scanPIDs_not_found (v : Variant) (os : ProcOS) (lower : List Nat → List Nat) :
    ∀ pids : List Nat,
      (∀ q ∈ pids, q = 0 ∨ (os.openProcess q).2 = some (.Errno ERROR_ACCESS_DENIED) ∨
        (Succeeds v.nameCap os q ∧ ¬ hasTargetModule os lower q)) →
      (scanPIDs v os lower pids).2 = .ret (0, some .ErrTargetPIDNotFound) := by
  intro pids
  induction pids with
  | nil =>
    intro _
    rfl
  | cons p rest ih =>
    intro hall
    have ih' := ih (fun q hq => hall q (List.mem_cons_of_mem p hq))
    by_cases hp0 : p = 0
    · simpa [scanPIDs, hp0] using ih'
    · simp only [scanPIDs, if_neg hp0]
      rcases hall p (List.mem_cons_self p rest) with h0 | hden | ⟨⟨ho, he, hc, hn, hf⟩, hnomatch⟩
      · exact absurd h0 hp0
      · rw [if_pos hden]
        exact ih'
      · have hnext := (scanProcess_result v os lower _ he hc hn hf).2 hnomatch
        rcases hsp : scanProcess v os lower (os.openProcess p).1 with ⟨tr, sc⟩
        rw [hsp] at hnext
        dsimp only at hnext
        subst hnext
        simp [ho, hsp, ih']

/-- A poll on which the locator reports NotFound returns that error and makes
no set-entry call. -/
theorem getPoeConnection_of_notFound (lower : List Nat → List Nat) (w : World)
    (h : PollNotFound lower w) :
    (getPoeConnection lower w).2 = .ret (MIB_TCPROW2.zero, some .ErrTargetPIDNotFound) ∧
    (getPoeConnection lower w).1.filter Event.isSetTcpEntry = [] := by
  obtain ⟨tbl, pids, h1, h2, h3⟩ := h
  have n1 := getTcpTable_no_set w.tcp
  have n2 := EnumProcesses_trace w.enum
  have n3 := scanPIDs_no_set Variant.tcp_disconnect w.proc lower pids
  unfold getPoeConnection
  rcases hg : GetTcpTable2 w.tcp with ⟨t1, o1⟩
  rw [hg] at h1 n1
  dsimp only at h1 n1
  subst h1
  rcases he : EnumProcesses w.enum with ⟨t2, o2⟩
  rw [he] at h2 n2
  dsimp only at h2 n2
  subst h2 n2
  dsimp only [Option.getD]
  rcases ht : getTargetPID_tcp_disconnect w.proc lower pids with ⟨t3, o3⟩
  have n3' : t3.filter Event.isSetTcpEntry = [] := by
    have := n3
    unfold getTargetPID_tcp_disconnect at ht
    rw [ht] at this
    exact this
  rw [ht] at h3
  dsimp only at h3
  subst h3
  simp [List.filter_append, n1, n3', List.filter, Event.isSetTcpEntry]

/-- Polls `n .. n + k - 1` find no connection yet: the wait started at poll `n`
with `fuel + k` polls allowed is the wait started at poll `n + k` with `fuel`
polls allowed, after `k` more polls that make no set-entry call. -/
theorem waitForPoeConnection_misses (lower : List Nat → List Nat) (worlds : Nat → World)
    (pid fuel : Nat) :
    ∀ (k n : Nat), (∀ j, j < k → PollSees lower (worlds (n + j)) pid none) →
      ∃ tpre : List Event, tpre.filter Event.isSetTcpEntry = [] ∧
        waitForPoeConnection lower worlds (fuel + k) n =
          (waitForPoeConnection lower worlds fuel (n + k)).map
            (fun r => ⟨r.polls + k, tpre ++ r.trace, r.out⟩) := by
  intro k
  induction k with
  | zero =>
    intro n _
    refine ⟨[], rfl, ?_⟩
    cases hw : waitForPoeConnection lower worlds fuel n <;> simp [hw]
  | succ k ih =>
    intro n hmiss
    obtain ⟨hout, htr⟩ := getPoeConnection_of_sees lower (worlds n) pid none
      (by simpa using hmiss 0 (by omega))
    rcases hg : getPoeConnection lower (worlds n) with ⟨t, o⟩
    rw [hg] at hout htr
    dsimp only at hout htr
    subst hout
    obtain ⟨t2, htr2, hw⟩ := ih (n + 1)
      (fun j hj => by
        have := hmiss (j + 1) (by omega)
        rwa [show n + (j + 1) = n + 1 + j by omega] at this)
    refine ⟨t ++ t2, by simp [List.filter_append, htr, htr2], ?_⟩
    rw [show fuel + (k + 1) = fuel + k + 1 by omega]
    rw [show n + (k + 1) = n + 1 + k by omega]
    simp only [waitForPoeConnection, hg, Option.elim, ne_eq, not_true_eq_false, if_false, hw]
    cases hrest : waitForPoeConnection lower worlds fuel (n + 1 + k) with
    | none => rfl
    | some r => simp [Nat.add_assoc]

/-- The trigger path of `start` once the wait has returned an error: `panic(err)`. -/
theorem startOnKey_of_wait_error (lower : List Nat → List Nat) (worlds : Nat → World)
    (set : SetOS) (fuel polls : Nat) (t : List Event) (con : MIB_TCPROW2) (err : GoError)
    (hwait : waitForPoeConnection lower worlds fuel 0 = some ⟨polls, t, .ret (con, some err)⟩) :
    startOnKey lower worlds set fuel 81 = some (polls, t, .fault (.panicErr err)) := by
  unfold startOnKey
  rw [if_neg (by decide), hwait]

/-- C11 as stated fails: every poll of `strangerWorlds` sees processes of which
none matches, the locator reports `ErrTargetPIDNotFound`, the wait returns that
error after one poll, and the handling of the trigger key panics with it. -/
theorem notFound_panics_start :
    (getTargetPID_tcp_disconnect demoProcOS asciiToLower [0, 4, 8]).2 =
      .ret (0, some .ErrTargetPIDNotFound) ∧
    (getPoeConnection asciiToLower (strangerWorlds 0)).2 =
      .ret (MIB_TCPROW2.zero, some .ErrTargetPIDNotFound) ∧
    (waitForPoeConnection asciiToLower strangerWorlds 5 0).map WaitResult.out =
      some (.ret (MIB_TCPROW2.zero, some .ErrTargetPIDNotFound)) ∧
    (startOnKey asciiToLower strangerWorlds acceptingOS 5 81).map (fun r => r.2.2) =
      some (.fault (.panicErr .ErrTargetPIDNotFound)) := by
  refine ⟨by decide, by decide, by decide, by decide⟩

/-- C11, amended. When every candidate id is 0, is refused with access denied,
or is scanned successfully without a match, `getTargetPID` (either copy) reports
`ErrTargetPIDNotFound`.  The caller treats it as fatal: when polls `0 .. k - 1`
find no connection yet and the locator reports NotFound on poll `k`, the wait
returns `ErrTargetPIDNotFound` after `k + 1` polls, without polling again, and
the handling of the trigger key panics with that error; no set-entry call is
made. -/
theorem notFound_is_fatal (os : ProcOS) (lower : List Nat → List Nat) (pids : List Nat)
    (worlds : Nat → World) (set : SetOS) (pid k fuel : Nat)
    (hscan : ∀ q ∈ pids, q = 0 ∨ (os.openProcess q).2 = some (.Errno ERROR_ACCESS_DENIED) ∨
      (Succeeds 500 os q ∧ ¬ hasTargetModule os lower q))
    (hfuel : k < fuel)
    (hmiss : ∀ n, n < k → PollSees lower (worlds n) pid none)
    (hnone : PollNotFound lower (worlds k)) :
    (getTargetPID os lower pids).2 = .ret (0, some .ErrTargetPIDNotFound) ∧
    (getTargetPID_tcp_disconnect os lower pids).2 = .ret (0, some .ErrTargetPIDNotFound) ∧
    ∃ t : List Event,
      waitForPoeConnection lower worlds fuel 0 =
        some ⟨k + 1, t, .ret (MIB_TCPROW2.zero, some .ErrTargetPIDNotFound)⟩ ∧
      startOnKey lower worlds set fuel 81 =
        some (k + 1, t, .fault (.panicErr .ErrTargetPIDNotFound)) ∧
      t.filter Event.isSetTcpEntry = [] := by
  refine ⟨scanPIDs_not_found Variant.main os lower pids hscan,
    scanPIDs_not_found Variant.tcp_disconnect os lower pids
      (fun q hq => (hscan q hq).imp id (Or.imp id
        (fun h => ⟨Succeeds.mono (by decide : (500 : Nat) ≤ 1024) h.1, h.2⟩))), ?_⟩
  obtain ⟨f, rfl⟩ : ∃ f, fuel = f + 1 + k := ⟨fuel - 1 - k, by omega⟩
  obtain ⟨tpre, hpre, hw⟩ := waitForPoeConnection_misses lower worlds pid (f + 1) k 0
    (fun j hj => by simpa using hmiss j hj)
  obtain ⟨hout, htr⟩ := getPoeConnection_of_notFound lower (worlds k) hnone
  rcases hg : getPoeConnection lower (worlds k) with ⟨t, o⟩
  rw [hg] at hout htr
  dsimp only at hout htr
  subst hout
  have hlast : waitForPoeConnection lower worlds (f + 1) (0 + k) =
      some ⟨1, t, .ret (MIB_TCPROW2.zero, some .ErrTargetPIDNotFound)⟩ := by
    simp [waitForPoeConnection, hg]
  rw [hlast] at hw
  have hw2 : waitForPoeConnection lower worlds (f + 1 + k) 0 =
      some ⟨k + 1, tpre ++ t, .ret (MIB_TCPROW2.zero, some .ErrTargetPIDNotFound)⟩ := by
    rw [hw]
    simp [Nat.add_comm]
  exact ⟨tpre ++ t, hw2, startOnKey_of_wait_error lower worlds set _ _ _ _ _ hw2,
    by simp [List.filter_append, hpre, htr]⟩

theorem notFound_is_fatal_witness :
    (getTargetPID demoProcOS asciiToLower [0, 4, 8]).2 = .ret (0, some .ErrTargetPIDNotFound) ∧
    ∃ t : List Event,
      startOnKey asciiToLower strangerWorlds acceptingOS 3 81 =
        some (1, t, .fault (.panicErr .ErrTargetPIDNotFound)) := by
  have h := notFound_is_fatal demoProcOS asciiToLower [0, 4, 8] strangerWorlds acceptingOS
    4242 0 3
    (by
      intro q hq
      simp only [List.mem_cons, List.mem_singleton, List.not_mem_nil, or_false] at hq
      rcases hq with rfl | rfl | rfl
      · exact Or.inl rfl
      · exact Or.inr (Or.inl rfl)
      · exact Or.inr (Or.inr ⟨by decide, by decide⟩))
    (by decide)
    (fun n hn => absurd hn (Nat.not_lt_zero n))
    ⟨[(7, ⟨2, 0, 80, 0, 0, 7, 0⟩), (4242, demoRow)], [0, 4, 8], by decide, by decide,
      by decide⟩
  obtain ⟨h1, _, t, _, h3, _⟩ := h
  exact ⟨h1, t, h3⟩

/-! ## Theorems: bounds of the table scan -/

/-- The table loop started at record `s` with `n` records to go, all of them
inside the buffer, prepends those `n` records to the map, last one first. -/
theorem tableLoop_log (buf : List Nat) :
    ∀ (n s : Nat) (m : ConnMap), 4 + 28 * (s + n) ≤ buf.length →
      tableLoop buf n (4 + 28 * s) m =
        .ret (((List.range' s n).map
          (fun i => ((recordAt buf i).dwOwningPid, recordAt buf i))).reverse ++ m) := by
  intro n
  induction n with
  | zero =>
    intro s m _
    rfl
  | succ n ih =>
    intro s m hlen
    have hrow : readRow buf (4 + 28 * s) = .ret (recordAt buf s) :=
      readRow_inside buf _ (by omega)
    have hidx : 4 + 28 * s + 28 = 4 + 28 * (s + 1) := by ring
    simp only [tableLoop, hrow, hidx]
    rw [ih (s + 1) _ (by omega)]
    simp [List.range'_succ, ConnMap.set]

/-- C12 as stated fails: the buffer has 40 bytes and its header announces 2
records; the load of record 1 starts at offset 32, inside the buffer, and its 28
bytes extend past offset 40. -/
theorem getTcpTable_reads_past_buffer :
    shortTcpOS.buffer.length = 40 ∧ readU32 shortTcpOS.buffer 0 = 2 ∧
    readRow shortTcpOS.buffer (4 + 28 * 1) = .fault (.outOfBoundsRead 32 28 40) ∧
    (getTcpTable shortTcpOS).2 = .fault (.outOfBoundsRead 32 28 40) ∧
    (GetTcpTable2 shortTcpOS).2 = .fault (.outOfBoundsRead 32 28 40) := by
  refine ⟨by decide, by decide, by decide, by decide, by decide⟩

/-- C12, amended. For a phase-2 buffer of `S` bytes whose header count `N`
satisfies `4 + 28 * N ≤ S`, `getTcpTable` and `GetTcpTable2` read exactly the
records `0 .. N - 1`, in that order, and return the map built from them; each of
these reads is the 28 bytes at offset `4 + 28 * i`, and they end at or before
offset `S`. -/
theorem getTcpTable_reads_in_bounds (os : TcpOS)
    (hprobe : os.probeCode = ERROR_INSUFFICIENT_BUFFER)
    (hfetch : os.fetchCode = ERROR_SUCCESS)
    (hfit : 4 + 28 * readU32 os.buffer 0 ≤ os.buffer.length) :
    (getTcpTable os).2 =
      .ret (some (recordsRead os.buffer (readU32 os.buffer 0)).reverse, none) ∧
    (GetTcpTable2 os).2 =
      .ret (some (recordsRead os.buffer (readU32 os.buffer 0)).reverse, none) ∧
    (recordsRead os.buffer (readU32 os.buffer 0)).length = readU32 os.buffer 0 ∧
    ∀ i, i < readU32 os.buffer 0 →
      readRow os.buffer (4 + 28 * i) = .ret (recordAt os.buffer i) ∧
      4 + 28 * i + 28 ≤ os.probeSize % 4294967296 := by
  have hloop := tableLoop_log os.buffer (readU32 os.buffer 0) 0 [] (by simpa using hfit)
  have hsize : os.probeSize % 4294967296 ≠ 0 := by
    rw [← buffer_length]
    omega
  have hlen : ¬ os.buffer.length < 4 := by omega
  have hrun : (getTcpTable os).2 =
      .ret (some (recordsRead os.buffer (readU32 os.buffer 0)).reverse, none) := by
    simp only [Nat.mul_zero, Nat.add_zero, List.append_nil] at hloop
    simp [getTcpTable, hprobe, hfetch, hsize, buildConnections, hlen, hloop, recordsRead,
      List.range_eq_range']
  refine ⟨hrun, hrun, by simp [recordsRead], fun i hi => ?_⟩
  have hin : 4 + 28 * i + 28 ≤ os.buffer.length := by omega
  exact ⟨readRow_inside os.buffer _ hin, by rw [← buffer_length]; exact hin⟩

theorem getTcpTable_reads_in_bounds_witness :
    4 + 28 * readU32 demoTcpOS.buffer 0 ≤ demoTcpOS.buffer.length ∧
    (getTcpTable demoTcpOS).2 =
      .ret (some [(7, ⟨2, 0, 80, 0, 0, 7, 0⟩), (4242, demoRow)], none) :=
  ⟨by decide, (getTcpTable_reads_in_bounds demoTcpOS rfl rfl (by decide)).1⟩

/-! ## Theorems: more modules than the handle buffer holds -/

/-- The module loop from entry `i` on, when the loop bound exceeds 1024 and the
fetches for the entries below 1024 succeed without a match: the loop indexes
`hModules[1024]`. -/
theorem scanModules_overflow (v : Variant) (os : ProcOS) (lower : List Nat → List Nat)
    (h : Nat) :
    ∀ (todo i : Nat), i ≤ 1024 → 1024 < i + todo →
      (∀ j, i ≤ j → j < 1024 → (nameFetch os h j).winErr = 0 ∧
        0 < (nameFetch os h j).bytesWritten ∧ (nameFetch os h j).bytesWritten ≤ v.nameCap ∧
        Contains (lower (moduleName os h j)) exile ≠ true) →
      (scanModules v os lower h (os.enumProcessModules h).hModules todo i).2 =
        .crash (.indexOutOfRange 1024 1024) := by
  intro todo
  induction todo with
  | zero =>
    intro i hi hover _
    omega
  | succ todo ih =>
    intro i hi hover hok
    rcases Nat.eq_or_lt_of_le hi with heq | hlt
    · subst heq
      rfl
    · obtain ⟨h2, h3, h4, hm⟩ := hok i (le_refl i) hlt
      unfold nameFetch at h2 h3 h4
      unfold moduleName nameFetch at hm
      unfold scanModules
      dsimp only
      rw [if_neg (by omega), if_neg (by simpa [ERROR_SUCCESS] using h2), if_neg (by omega),
        if_neg (by omega), if_neg hm]
      exact ih (i + 1) (by omega) (by omega) (fun j hj1 hj2 => hok j (by omega) hj2)

/-- A process that opens, whose enumeration succeeds and reports more than 1024
handles, and none of whose first 1024 modules matches, makes the scan fault with
an index out of range, in either copy. -/
theorem scanPIDs_overflow (v : Variant) (os : ProcOS) (lower : List Nat → List Nat)
    (p : Nat) (rest : List Nat) (hp0 : p ≠ 0) (hopen : (os.openProcess p).2 = none)
    (herr : (os.enumProcessModules (os.openProcess p).1).winErr = 0)
    (hcode : (os.enumProcessModules (os.openProcess p).1).winErrCode ≠ 0)
    (hcount : 1024 < moduleCount os (os.openProcess p).1)
    (hok : ∀ j, j < 1024 → (nameFetch os (os.openProcess p).1 j).winErr = 0 ∧
      0 < (nameFetch os (os.openProcess p).1 j).bytesWritten ∧
      (nameFetch os (os.openProcess p).1 j).bytesWritten ≤ v.nameCap ∧
      Contains (lower (moduleName os (os.openProcess p).1 j)) exile ≠ true) :
    (scanPIDs v os lower (p :: rest)).2 = .fault (.indexOutOfRange 1024 1024) := by
  have hmod := scanModules_overflow v os lower (os.openProcess p).1
    (moduleCount os (os.openProcess p).1) 0 (by omega) (by omega) (fun j _ hj => hok j hj)
  have hproc : (scanProcess v os lower (os.openProcess p).1).2 =
      .crash (.indexOutOfRange 1024 1024) := by
    unfold scanProcess
    dsimp only
    rw [if_neg (by simpa [ERROR_SUCCESS] using herr), if_neg hcode]
    exact hmod
  rcases hsp : scanProcess v os lower (os.openProcess p).1 with ⟨tr, sc⟩
  rw [hsp] at hproc
  dsimp only at hproc
  subst hproc
  simp [scanPIDs, hp0, hopen, hsp]

/-- C13, at the input where it fails: process 8 opens, its module enumeration
succeeds and reports 8200 bytes, that is 1025 handles for the 1024-entry buffer.
When none of the first 1024 names matches, `getTargetPID` (either copy) faults on
`hModules[1024]` instead of returning an error; when the module at index 5
matches, it returns process 8 with a nil error. -/
theorem getTargetPID_module_overflow :
    moduleCount crowdedProcOS 1008 = 1025 ∧
    (getTargetPID crowdedProcOS asciiToLower [8]).2 = .fault (.indexOutOfRange 1024 1024) ∧
    (getTargetPID_tcp_disconnect crowdedProcOS asciiToLower [8]).2 =
      .fault (.indexOutOfRange 1024 1024) ∧
    moduleCount crowdedTargetOS 1008 = 1025 ∧
    (getTargetPID crowdedTargetOS asciiToLower [8]).2 = .ret (8, none) ∧
    (getTargetPID_tcp_disconnect crowdedTargetOS asciiToLower [8]).2 = .ret (8, none) := by
  have hnames : ∀ (cap : Nat), 9 ≤ cap → ∀ j, j < 1024 →
      (nameFetch crowdedProcOS (crowdedProcOS.openProcess 8).1 j).winErr = 0 ∧
      0 < (nameFetch crowdedProcOS (crowdedProcOS.openProcess 8).1 j).bytesWritten ∧
      (nameFetch crowdedProcOS (crowdedProcOS.openProcess 8).1 j).bytesWritten ≤ cap ∧
      Contains (asciiToLower (moduleName crowdedProcOS (crowdedProcOS.openProcess 8).1 j))
        exile ≠ true := by
    intro cap hcap j _
    refine ⟨rfl, ?_, hcap, ?_⟩
    · show 0 < 9
      decide
    · show Contains (asciiToLower ((List.range 9).map (fun k => nameNtdll.getD k 0 % 256)))
        exile ≠ true
      decide
  refine ⟨by decide, ?_, ?_, by decide, by decide, by decide⟩
  · exact scanPIDs_overflow Variant.main crowdedProcOS asciiToLower 8 [] (by decide) rfl rfl
      (by decide) (by decide) (hnames 500 (by decide))
  · exact scanPIDs_overflow Variant.tcp_disconnect crowdedProcOS asciiToLower 8 [] (by decide)
      rfl rfl (by decide) (by decide) (hnames 1024 (by decide))

/-! ## Theorems: process handles -/

theorem moduleQueries_no_close (t : List Event) (ht : ∀ e ∈ t, e.isModuleQuery = true) :
    t.filterMap Event.closedHandle = [] := by
  induction t with
  | nil => rfl
  | cons e t ih =>
    have he := ht e (List.mem_cons_self e t)
    have hrest := ih (fun x hx => ht x (List.mem_cons_of_mem e hx))
    cases e <;> simp_all [Event.isModuleQuery, Event.closedHandle, List.filterMap_cons]

/-- The scan makes no `CloseHandle` call, whatever the list and the operating
system's answers. -/
theorem scanPIDs_no_close (v : Variant) (os : ProcOS) (lower : List Nat → List Nat) :
    ∀ pids : List Nat, (scanPIDs v os lower pids).1.filterMap Event.closedHandle = [] := by
  intro pids
  induction pids with
  | nil => rfl
  | cons p rest ih =>
    by_cases hp0 : p = 0
    · simpa [scanPIDs, hp0] using ih
    · simp only [scanPIDs, if_neg hp0]
      split
      · simpa [List.filterMap_cons, Event.closedHandle] using ih
      · rcases hop : (os.openProcess p).2 with _ | err
        · have hev := scanProcess_events v os lower (os.openProcess p).1
          rcases hsp : scanProcess v os lower (os.openProcess p).1 with ⟨tr, sc⟩
          rw [hsp] at hev
          dsimp only at hev
          have htr := moduleQueries_no_close tr hev
          cases sc <;>
            simp [List.filterMap_cons, Event.closedHandle, List.filterMap_append, htr, ih]
        · simp [List.filterMap_cons, Event.closedHandle]

/-- C14 as stated fails: on the list `[8, 4242]` the scan opens process 8
(handle 1008, no match, on to the next id) and process 4242 (handle 5242, match
found) and returns 4242; neither handle is released. -/
theorem getTargetPID_leaves_handles_open :
    (getTargetPID demoProcOS asciiToLower [8, 4242]).2 = .ret (4242, none) ∧
    openedHandles demoProcOS (getTargetPID demoProcOS asciiToLower [8, 4242]).1 =
      [1008, 5242] ∧
    (getTargetPID demoProcOS asciiToLower [8, 4242]).1.filterMap Event.closedHandle = [] ∧
    openedHandles demoProcOS (getTargetPID_tcp_disconnect demoProcOS asciiToLower [8, 4242]).1 =
      [1008, 5242] ∧
    (getTargetPID_tcp_disconnect demoProcOS asciiToLower [8, 4242]).1.filterMap
      Event.closedHandle = [] := by
  refine ⟨by decide, by decide, by decide, by decide, by decide⟩

/-- C14, amended. For every candidate id list and every behaviour of the
operating system, `getTargetPID` (either copy) makes no `CloseHandle` call: on
every exit path each process handle it opened is still open when it returns. -/
theorem getTargetPID_releases_nothing (os : ProcOS) (lower : List Nat → List Nat)
    (pids : List Nat) :
    (getTargetPID os lower pids).1.filterMap Event.closedHandle = [] ∧
    (getTargetPID_tcp_disconnect os lower pids).1.filterMap Event.closedHandle = [] :=
  ⟨scanPIDs_no_close Variant.main os lower pids,
    scanPIDs_no_close Variant.tcp_disconnect os lower pids⟩

/-! ## Theorems: first match against a crowded process -/

/-- C3, at the inputs where it fails.  On `crowdedFirstOS` every open, module
enumeration and name fetch succeeds, process 8 has no module whose name contains
"exile" and process 4242 has one, so 4242 is the first match of `[8, 4242]`; but
process 8 reports 1025 module handles and `getTargetPID` (either copy) faults on
`hModules[1024]` instead of returning 4242.  On `staleNameOS` the fetch of the
name of the module of process 8 writes 9 bytes and returns 9 while the last
error is 299: one copy returns `Errno(299)`, the other panics with it, and 4242
is not returned. -/
theorem getTargetPID_first_match_missed :
    (crowdedFirstOS.openProcess 8).2 = none ∧ (crowdedFirstOS.openProcess 4242).2 = none ∧
    (crowdedFirstOS.enumProcessModules 1008).winErr = 0 ∧
    (crowdedFirstOS.enumProcessModules 1008).winErrCode = 1 ∧
    moduleCount crowdedFirstOS 1008 = 1025 ∧
    (∀ j, (nameFetch crowdedFirstOS 1008 j).winErr = 0 ∧
      (nameFetch crowdedFirstOS 1008 j).bytesWritten = 9 ∧
      moduleName crowdedFirstOS 1008 j = nameNtdll) ∧
    Contains (asciiToLower nameNtdll) exile = false ∧
    Succeeds 500 crowdedFirstOS 4242 ∧
    hasTargetModule crowdedFirstOS asciiToLower 4242 ∧
    (getTargetPID crowdedFirstOS asciiToLower [8, 4242]).2 =
      .fault (.indexOutOfRange 1024 1024) ∧
    (getTargetPID_tcp_disconnect crowdedFirstOS asciiToLower [8, 4242]).2 =
      .fault (.indexOutOfRange 1024 1024) ∧
    (nameFetch staleNameOS 1008 0).bytesWritten = 9 ∧
    (nameFetch staleNameOS 1008 0).winErr = 299 ∧
    hasTargetModule staleNameOS asciiToLower 4242 ∧
    (getTargetPID staleNameOS asciiToLower [8, 4242]).2 = .ret (0, some (.Errno 299)) ∧
    (getTargetPID_tcp_disconnect staleNameOS asciiToLower [8, 4242]).2 =
      .fault (.panicErr (.Errno 299)) := by
  have hnames : ∀ (cap : Nat), 9 ≤ cap → ∀ j, j < 1024 →
      (nameFetch crowdedFirstOS (crowdedFirstOS.openProcess 8).1 j).winErr = 0 ∧
      0 < (nameFetch crowdedFirstOS (crowdedFirstOS.openProcess 8).1 j).bytesWritten ∧
      (nameFetch crowdedFirstOS (crowdedFirstOS.openProcess 8).1 j).bytesWritten ≤ cap ∧
      Contains (asciiToLower (moduleName crowdedFirstOS (crowdedFirstOS.openProcess 8).1 j))
        exile ≠ true := by
    intro cap hcap j _
    refine ⟨rfl, ?_, hcap, ?_⟩
    · show 0 < 9
      decide
    · show Contains (asciiToLower ((List.range 9).map (fun k => nameNtdll.getD k 0 % 256)))
        exile ≠ true
      decide
  refine ⟨rfl, rfl, rfl, rfl, by decide, fun j => ⟨rfl, rfl, ?_⟩, by decide, by decide,
    by decide, ?_, ?_,
    rfl, rfl, by decide, by decide, by decide⟩
  · show (List.range 9).map (fun k => nameNtdll.getD k 0 % 256) = nameNtdll
    decide
  · exact scanPIDs_overflow Variant.main crowdedFirstOS asciiToLower 8 [4242] (by decide) rfl
      rfl (by decide) (by decide) (hnames 500 (by decide))
  · exact scanPIDs_overflow Variant.tcp_disconnect crowdedFirstOS asciiToLower 8 [4242]
      (by decide) rfl rfl (by decide) (by decide) (hnames 1024 (by decide))

end Playground
